import Mathlib

/-!
Verification of the PassQ authentication/session-security core.

Shallow embedding of the Rust sources:
* `src/backend/src/crypto.rs`            — envelope encryption (AES-256-GCM via ring)
* `src/backend/src/token_management.rs`  — JWT token manager with revocation list
* `src/backend/src/enterprise_session_manager.rs` — session limits, risk scoring
* `src/backend/src/audit.rs`             — tamper-evident audit log

Machine integers are modelled as `Nat`/`Int`; bytes as `Fin 256`; UUIDs and
JWT strings as `String`; `chrono` timestamps as `Int` seconds since epoch
(`Duration::minutes(15) = 900`, `Duration::days(7) = 604800`, etc.).
External library calls (ring AEAD, HMAC, jsonwebtoken signing) are modelled
as explicit function parameters together with the contract the library
documents; randomness (nonces, UUIDs) is passed in as explicit arguments.
-/

/-! ## Bytes and the AEAD primitive (crypto.rs) -/

/-- A byte, as used for plaintexts, nonces and ciphertext blobs. -/
abbrev Byte := Fin 256

/-- Sum of a list of bytes in `Fin 256`; used by the concrete witness AEAD. -/
def bsum : List Byte → Byte
  | [] => 0
  | b :: r => b + bsum r

/-- Model of `ring::aead::LessSafeKey` (an AES-256-GCM key).  The two ring
primitives used by crypto.rs are carried as functions:
`seal_in_place_append_tag nonce data` returns `ciphertext ++ tag` and
`open_in_place nonce data` authenticates and decrypts, returning `none` on
tag-verification failure.  The 32-byte key material is abstracted into the
functions themselves. -/
structure AeadKey where
  seal_in_place_append_tag : List Byte → List Byte → List Byte
  open_in_place : List Byte → List Byte → Option (List Byte)

/-- The contract ring documents for AES-256-GCM, idealized deterministically:
sealing appends a 16-byte tag, opening inverts sealing, opening rejects any
blob that is not a sealed message, and changing a single byte of a sealed
blob never yields a sealed blob (unforgeability, which for real AES-GCM
holds up to negligible probability). -/
structure AeadSound (key : AeadKey) : Prop where
  seal_length : ∀ n p, (key.seal_in_place_append_tag n p).length = p.length + 16
  open_seal : ∀ n p, key.open_in_place n (key.seal_in_place_append_tag n p) = some p
  open_reject : ∀ n d, (∀ p, d ≠ key.seal_in_place_append_tag n p) →
    key.open_in_place n d = none
  seal_flip : ∀ n p i b, ∀ hi : i < (key.seal_in_place_append_tag n p).length,
    b ≠ (key.seal_in_place_append_tag n p).get ⟨i, hi⟩ →
    ∀ q, (key.seal_in_place_append_tag n p).set i b ≠ key.seal_in_place_append_tag n q

/-- crypto.rs `encrypt`: seals `data` under a freshly drawn 12-byte random
nonce (passed here as the explicit argument `nonce_bytes`, standing for the
`SystemRandom` draw) and prepends the nonce:
the result is `nonce ++ ciphertext ++ tag`.  The source's error branches
(RNG failure, seal failure) concern the external RNG/AEAD calls and are
outside the deterministic model. -/
def encrypt (data : List Byte) (key : AeadKey) (nonce_bytes : List Byte) : List Byte :=
  nonce_bytes ++ key.seal_in_place_append_tag nonce_bytes data

/-- crypto.rs `decrypt`: rejects inputs shorter than 12 bytes, otherwise
splits the first 12 bytes off as the nonce and opens the remainder.
`ring::error::Unspecified` is the display of the error value ring returns
on tag-verification failure. -/
def decrypt (encrypted : List Byte) (key : AeadKey) : Except String (List Byte) :=
  if encrypted.length < 12 then
    .error "Encrypted data too short to contain nonce"
  else
    let nonce_bytes := encrypted.take 12
    let ciphertext := encrypted.drop 12
    match key.open_in_place nonce_bytes ciphertext with
    | some decrypted_data => .ok decrypted_data
    | none => .error "Decryption failed: ring::error::Unspecified"

/-! ### A concrete AEAD instance used by the witnesses.
A toy authenticated cipher: byte-wise addition of a nonce-derived pad, and a
16-byte tag of repeated checksums.  It provably satisfies `AeadSound`. -/

/-- Toy stream encryption: add `bsum nonce` to every byte. -/
def toyEnc (nonce p : List Byte) : List Byte := p.map (fun b => b + bsum nonce)

/-- Toy stream decryption: subtract `bsum nonce` from every byte. -/
def toyDec (nonce c : List Byte) : List Byte := c.map (fun b => b - bsum nonce)

/-- Toy 16-byte tag: the checksum of ciphertext plus nonce, repeated. -/
def toyTag (nonce c : List Byte) : List Byte := List.replicate 16 (bsum c + bsum nonce)

/-- Toy seal: ciphertext followed by its tag. -/
def toySeal (nonce p : List Byte) : List Byte :=
  toyEnc nonce p ++ toyTag nonce (toyEnc nonce p)

/-- Toy open: split the trailing 16 tag bytes, verify, decrypt. -/
def toyOpen (nonce d : List Byte) : Option (List Byte) :=
  if d.length < 16 then none
  else
    let c := d.take (d.length - 16)
    let t := d.drop (d.length - 16)
    if t = toyTag nonce c then some (toyDec nonce c) else none

/-- The toy AEAD key packaged as an `AeadKey`. -/
def toyAead : AeadKey :=
  { seal_in_place_append_tag := toySeal, open_in_place := toyOpen }

/-! ## Token management (token_management.rs) -/

/-- Association list standing for `HashMap<String, V>`. -/
abbrev AssocMap (α : Type) := List (String × α)

/-- `HashMap::get` / `contains_key`: first binding for the key, if any. -/
def mapLookup {α : Type} : AssocMap α → String → Option α
  | [], _ => none
  | (k, v) :: rest, key => if k = key then some v else mapLookup rest key

/-- Remove all bindings for a key (helper for insert/remove semantics). -/
def mapErase {α : Type} : AssocMap α → String → AssocMap α
  | [], _ => []
  | (k, v) :: rest, key =>
    if k = key then mapErase rest key else (k, v) :: mapErase rest key

/-- `HashMap::insert` semantics: the new binding replaces any old one. -/
def mapInsert {α : Type} (m : AssocMap α) (key : String) (v : α) : AssocMap α :=
  (key, v) :: mapErase m key

/-- `EnhancedClaims` from token_management.rs (the signed JWT payload). -/
structure EnhancedClaims where
  sub : String
  exp : Int
  iat : Int
  jti : String
  token_type : String
  session_id : String
  aud : String
  iss : String
  device_id : Option String
  scope : List String
deriving DecidableEq

/-- A signed JWT.  `jsonwebtoken::encode` with an HMAC-SHA256 `EncodingKey`
is modelled by recording the claims together with the signing secret;
`decode` accepts the token exactly when the verifying secret matches
(`sig_key = secret` models a valid MAC). -/
structure Jwt where
  claims : EnhancedClaims
  sig_key : String
deriving DecidableEq

/-- Errors of the jsonwebtoken decode step plus the revocation rejection
(`ErrorKind::InvalidToken`, as raised by `validate_enhanced_token`). -/
inductive JwtError where
  | invalidToken
  | invalidSignature
  | expiredSignature
deriving DecidableEq

/-- `jsonwebtoken::Validation::new(HS256)` default expiry leeway, seconds. -/
def jwtLeeway : Int := 60

/-- `jsonwebtoken::encode(&Header::default(), &claims, key(secret))`. -/
def jwt_encode (secret : String) (claims : EnhancedClaims) : Jwt :=
  { claims := claims, sig_key := secret }

/-- `jsonwebtoken::decode::<EnhancedClaims>` under
`Validation::new(Algorithm::HS256)`: signature check, then the default
expiry check `exp < now - leeway`.  This is the pure verify step of the
token codec; it takes no revocation state. -/
def jwt_decode (secret : String) (now : Int) (t : Jwt) : Except JwtError EnhancedClaims :=
  if t.sig_key ≠ secret then .error .invalidSignature
  else if t.claims.exp < now - jwtLeeway then .error .expiredSignature
  else .ok t.claims

/-- `RevokedToken` entry of the revocation list. -/
structure RevokedToken where
  jti : String
  user_id : String
  token_type : String
  revoked_at : Int
  expires_at : Int
  reason : String
deriving DecidableEq

/-- `ActiveSession` record of the token manager. -/
structure ActiveSession where
  session_id : String
  user_id : String
  access_token_jti : String
  refresh_token_jti : String
  created_at : Int
  last_activity : Int
  ip_address : Option String
  user_agent : Option String
  device_fingerprint : Option String
deriving DecidableEq

/-- `TokenAnalytics` event record. -/
structure TokenAnalytics where
  user_id : String
  event_type : String
  token_type : String
  timestamp : Int
  ip_address : Option String
  user_agent : Option String
  success : Bool
deriving DecidableEq

/-- `TokenPair` returned to callers (auth.rs). -/
structure TokenPair where
  access_token : Jwt
  refresh_token : Jwt
  expires_in : Int
deriving DecidableEq

/-- The mutable state of `TokenManager`: the three `Arc<Mutex<_>>` maps.
Operations below are its methods, with `Utc::now()` and every
`Uuid::new_v4()` passed in as explicit arguments. -/
structure TMState where
  revoked_tokens : AssocMap RevokedToken
  active_sessions : AssocMap ActiveSession
  token_analytics : List TokenAnalytics
deriving DecidableEq

/-- `TokenManager::record_token_analytics`. -/
def record_token_analytics (st : TMState) (a : TokenAnalytics) : TMState :=
  { st with token_analytics := st.token_analytics ++ [a] }

/-- `TokenManager::revoke_token`: inserts a revocation entry kept for 30
days (`Duration::days(30) = 2592000` seconds) and records analytics. -/
def revoke_token (st : TMState) (now : Int) (jti user_id token_type reason : String) :
    TMState :=
  let revoked_entry : RevokedToken :=
    { jti := jti, user_id := user_id, token_type := token_type,
      revoked_at := now, expires_at := now + 2592000, reason := reason }
  let st1 : TMState :=
    { st with revoked_tokens := mapInsert st.revoked_tokens jti revoked_entry }
  record_token_analytics st1
    { user_id := user_id, event_type := "revoked", token_type := token_type,
      timestamp := now, ip_address := none, user_agent := none, success := true }

/-- `TokenManager::validate_enhanced_token`: decode (signature + expiry),
then reject if the jti is on the revocation list, then bump the session's
`last_activity`. -/
def validate_enhanced_token (st : TMState) (secret : String) (now : Int) (t : Jwt) :
    Except JwtError EnhancedClaims × TMState :=
  match jwt_decode secret now t with
  | .error e => (.error e, st)
  | .ok claims =>
    if (mapLookup st.revoked_tokens claims.jti).isSome then
      (.error .invalidToken, st)
    else
      let sessions :=
        match mapLookup st.active_sessions claims.session_id with
        | some session =>
          mapInsert st.active_sessions claims.session_id
            { session with last_activity := now }
        | none => st.active_sessions
      (.ok claims, { st with active_sessions := sessions })

/-- `TokenManager::generate_enhanced_token_pair`: issues a 15-minute access
token and a 7-day refresh token with the given fresh jtis, stores the new
active session, records analytics. -/
def generate_enhanced_token_pair (st : TMState) (secret : String) (now : Int)
    (user_id session_id : String) (device_id ip_address user_agent : Option String)
    (access_jti refresh_jti : String) : TokenPair × TMState :=
  let access_claims : EnhancedClaims :=
    { sub := user_id, exp := now + 900, iat := now, jti := access_jti,
      token_type := "access", session_id := session_id, aud := "passq-api",
      iss := "passq-auth", device_id := device_id, scope := ["read", "write"] }
  let refresh_claims : EnhancedClaims :=
    { sub := user_id, exp := now + 604800, iat := now, jti := refresh_jti,
      token_type := "refresh", session_id := session_id, aud := "passq-auth",
      iss := "passq-auth", device_id := device_id, scope := ["refresh"] }
  let session : ActiveSession :=
    { session_id := session_id, user_id := user_id,
      access_token_jti := access_jti, refresh_token_jti := refresh_jti,
      created_at := now, last_activity := now, ip_address := ip_address,
      user_agent := user_agent, device_fingerprint := device_id }
  let st1 : TMState :=
    { st with active_sessions := mapInsert st.active_sessions session_id session }
  let st2 := record_token_analytics st1
    { user_id := user_id, event_type := "issued", token_type := "pair",
      timestamp := now, ip_address := ip_address, user_agent := user_agent,
      success := true }
  ({ access_token := jwt_encode secret access_claims,
     refresh_token := jwt_encode secret refresh_claims,
     expires_in := 900 }, st2)

/-- Error type of `TokenManager::refresh_token_pair` (`Box<dyn Error>` in
the source: a jsonwebtoken error or the "Invalid token type" string). -/
inductive RefreshError where
  | jwt (e : JwtError)
  | invalidTokenType
deriving DecidableEq

/-- `TokenManager::refresh_token_pair`: validate the refresh token, check
it is of kind refresh, revoke its jti (`"token_rotation"`), then issue a
fresh pair under a brand-new session id.  The superseded session record is
not removed or updated. -/
def refresh_token_pair (st : TMState) (secret : String) (now : Int)
    (refresh_tok : Jwt) (device_id ip_address user_agent : Option String)
    (new_session_id new_access_jti new_refresh_jti : String) :
    Except RefreshError TokenPair × TMState :=
  match validate_enhanced_token st secret now refresh_tok with
  | (.error e, st1) => (.error (.jwt e), st1)
  | (.ok claims, st1) =>
    if claims.token_type ≠ "refresh" then (.error .invalidTokenType, st1)
    else
      let st2 := revoke_token st1 now claims.jti claims.sub "refresh" "token_rotation"
      let pr := generate_enhanced_token_pair st2 secret now claims.sub
        new_session_id device_id ip_address user_agent new_access_jti new_refresh_jti
      let st4 := record_token_analytics pr.2
        { user_id := claims.sub, event_type := "refreshed", token_type := "pair",
          timestamp := now, ip_address := ip_address, user_agent := user_agent,
          success := true }
      (.ok pr.1, st4)

/-- `TokenManager::revoke_session`: remove the session record and revoke
both of its tokens. -/
def tm_revoke_session (st : TMState) (now : Int) (session_id reason : String) :
    Except String Unit × TMState :=
  match mapLookup st.active_sessions session_id with
  | some session =>
    let st1 : TMState :=
      { st with active_sessions := mapErase st.active_sessions session_id }
    let st2 := revoke_token st1 now session.access_token_jti session.user_id
      "access" reason
    let st3 := revoke_token st2 now session.refresh_token_jti session.user_id
      "refresh" reason
    (.ok (), st3)
  | none => (.error "Session not found", st)

/-- `TokenManager::revoke_all_user_tokens`: snapshot the user's sessions,
then revoke each one's tokens and remove it. -/
def revoke_all_user_tokens (st : TMState) (now : Int) (user_id reason : String) :
    TMState :=
  let user_sessions := st.active_sessions.filter (fun p => p.2.user_id == user_id)
  user_sessions.foldl
    (fun acc p =>
      let acc1 := revoke_token acc now p.2.access_token_jti user_id "access" reason
      let acc2 := revoke_token acc1 now p.2.refresh_token_jti user_id "refresh" reason
      { acc2 with active_sessions := mapErase acc2.active_sessions p.1 })
    st

/-- `TokenManager::cleanup_expired_tokens`: drop revocation entries past
their retention, sessions inactive for 30 days, analytics older than 90
days. -/
def cleanup_expired_tokens (st : TMState) (now : Int) : TMState :=
  { revoked_tokens := st.revoked_tokens.filter (fun p => decide (now < p.2.expires_at)),
    active_sessions :=
      st.active_sessions.filter (fun p => decide (now - 2592000 < p.2.last_activity)),
    token_analytics :=
      st.token_analytics.filter (fun a => decide (now - 7776000 < a.timestamp)) }

/-- The revocation lookup of `validate_enhanced_token`, as the separate,
explicit step that follows the pure verify step. -/
def revocationFilter (revoked : AssocMap RevokedToken)
    (r : Except JwtError EnhancedClaims) : Except JwtError EnhancedClaims :=
  match r with
  | .error e => .error e
  | .ok claims =>
    if (mapLookup revoked claims.jti).isSome then .error .invalidToken
    else .ok claims

/-- Registry invariant of the spec: every stored (hence active) session
references only unrevoked token ids. -/
def sessionsUnrevoked (st : TMState) : Prop :=
  ∀ p ∈ st.active_sessions,
    mapLookup st.revoked_tokens p.2.access_token_jti = none ∧
    mapLookup st.revoked_tokens p.2.refresh_token_jti = none

/-- Distinct sessions carry pairwise distinct token ids (jtis are v4
UUIDs, so this holds in every reachable state). -/
def sessionsJtiDisjoint (st : TMState) : Prop :=
  ∀ p ∈ st.active_sessions, ∀ q ∈ st.active_sessions, p.1 ≠ q.1 →
    p.2.access_token_jti ≠ q.2.access_token_jti ∧
    p.2.access_token_jti ≠ q.2.refresh_token_jti ∧
    p.2.refresh_token_jti ≠ q.2.access_token_jti ∧
    p.2.refresh_token_jti ≠ q.2.refresh_token_jti

/-! ## Enterprise session manager (enterprise_session_manager.rs)

The Postgres tables are modelled as lists of rows in insertion order.
`ORDER BY last_activity ASC` carries no secondary sort key in the source,
so the order among rows with equal `last_activity` is unspecified in SQL;
the model refines it to a stable sort (ties keep stored order).  The
`trusted_devices` and `token_analytics` tables are written but never read
by any modelled operation and are not carried in the state. -/

/-- `EnterpriseSession` row of the `active_sessions` table.  The `inet` and
`jsonb` columns are carried as `Option String`. -/
structure EnterpriseSession where
  id : String
  session_id : String
  user_id : String
  access_token_jti : String
  refresh_token_jti : String
  created_at : Int
  last_activity : Int
  expires_at : Int
  ip_address : Option String
  user_agent : Option String
  device_fingerprint : Option String
  device_name : Option String
  device_type : Option String
  location_country : Option String
  location_region : Option String
  location_city : Option String
  is_active : Bool
  created_by_ip : Option String
  last_seen_ip : Option String
  session_flags : Option String
deriving DecidableEq

/-- `EnterpriseRevokedToken` row of the `revoked_tokens` table. -/
structure EnterpriseRevokedToken where
  id : String
  jti : String
  user_id : String
  session_id : Option String
  token_type : String
  revoked_at : Int
  expires_at : Int
  revocation_reason : String
  revoked_by_user_id : Option String
  revoked_by_admin : Option Bool
  original_expiry : Option Int
  ip_address : Option String
  user_agent : Option String
deriving DecidableEq

/-- `SessionSecurityEvent` row of the `session_security_events` table.
The `jsonb` metadata column is abstracted to its reason string. -/
structure SessionSecurityEvent where
  id : String
  session_id : String
  user_id : String
  event_type : String
  severity : String
  timestamp : Int
  ip_address : Option String
  user_agent : Option String
  description : Option String
  action_taken : Option String
  resolved : Option Bool
  resolved_at : Option Int
  resolved_by : Option String
  metadata : Option String
deriving DecidableEq

/-- `SessionLimits` row of the `session_limits` table. -/
structure SessionLimits where
  id : String
  user_id : String
  max_concurrent_sessions : Int
  max_sessions_per_device : Int
  session_timeout_minutes : Int
  refresh_timeout_days : Int
  enforce_single_session : Option Bool
  allow_concurrent_mobile : Option Bool
  created_at : Int
  updated_at : Int
deriving DecidableEq

/-- `CreateSessionRequest`; the location JSON is carried as its extracted
country/region/city components, exactly the projections the source takes. -/
structure CreateSessionRequest where
  user_id : String
  device_fingerprint : Option String
  device_name : Option String
  device_type : Option String
  ip_address : Option String
  user_agent : Option String
  location_country : Option String
  location_region : Option String
  location_city : Option String
deriving DecidableEq

/-- Database state touched by the modelled `EnterpriseSessionManager`
operations. -/
structure EState where
  active_sessions : List EnterpriseSession
  revoked_tokens_db : List EnterpriseRevokedToken
  session_security_events : List SessionSecurityEvent
  session_limits : List SessionLimits
deriving DecidableEq

/-- Default `SessionLimits` used when the user has no row
(`max_concurrent_sessions = 5`, `max_sessions_per_device = 3`).  Row ids
are fresh v4 UUIDs in the source; id values are never read, so they are
modelled as `""`. -/
def defaultSessionLimits (user_id : String) (now : Int) : SessionLimits :=
  { id := "", user_id := user_id, max_concurrent_sessions := 5,
    max_sessions_per_device := 3, session_timeout_minutes := 15,
    refresh_timeout_days := 7, enforce_single_session := some false,
    allow_concurrent_mobile := some true, created_at := now, updated_at := now }

/-- `EnterpriseSessionManager::record_security_event`: append-only insert. -/
def es_record_security_event (st : EState) (e : SessionSecurityEvent) : EState :=
  { st with session_security_events := st.session_security_events ++ [e] }

/-- `EnterpriseSessionManager::revoke_session_tokens`: insert a revocation
row for the access token (15-minute original expiry) and one for the
refresh token (the session's expiry). -/
def es_revoke_session_tokens (st : EState) (now : Int) (session : EnterpriseSession)
    (reason : String) (revoked_by : Option String) : EState :=
  let access_revocation : EnterpriseRevokedToken :=
    { id := "", jti := session.access_token_jti, user_id := session.user_id,
      session_id := some session.session_id, token_type := "access",
      revoked_at := now, expires_at := now + 900, revocation_reason := reason,
      revoked_by_user_id := revoked_by, revoked_by_admin := some revoked_by.isSome,
      original_expiry := some (now + 900), ip_address := session.last_seen_ip,
      user_agent := session.user_agent }
  let refresh_revocation : EnterpriseRevokedToken :=
    { id := "", jti := session.refresh_token_jti, user_id := session.user_id,
      session_id := some session.session_id, token_type := "refresh",
      revoked_at := now, expires_at := session.expires_at,
      revocation_reason := reason, revoked_by_user_id := revoked_by,
      revoked_by_admin := some revoked_by.isSome,
      original_expiry := some session.expires_at,
      ip_address := session.last_seen_ip, user_agent := session.user_agent }
  { st with revoked_tokens_db :=
      st.revoked_tokens_db ++ [access_revocation, refresh_revocation] }

/-- The `diesel::update … set(is_active = false)` row transformation of
`revoke_session`. -/
def deactivateSession (session_id : String) (s : EnterpriseSession) :
    EnterpriseSession :=
  if s.session_id == session_id then { s with is_active := false } else s

/-- The resolved medium `session_revoked` security event recorded by
`revoke_session`. -/
def sessionRevokedEvent (now : Int) (session_id user_id reason : String)
    (revoked_by : Option String) : SessionSecurityEvent :=
  { id := "", session_id := session_id, user_id := user_id,
    event_type := "session_revoked", severity := "medium", timestamp := now,
    ip_address := none, user_agent := none,
    description := some ("Session revoked: " ++ reason),
    action_taken := some "session_terminated", resolved := some true,
    resolved_at := some now, resolved_by := revoked_by,
    metadata := some reason }

/-- `EnterpriseSessionManager::revoke_session`: look the session up
(`diesel .first`, i.e. the first stored row with that session id), revoke
its tokens, set `is_active = false` on every row with that session id,
record a resolved medium `session_revoked` event. -/
def es_revoke_session (st : EState) (now : Int) (session_id reason : String)
    (revoked_by : Option String) : Except String EState :=
  match st.active_sessions.find? (fun s => s.session_id == session_id) with
  | none => .error "session not found"
  | some session =>
    let st1 := es_revoke_session_tokens st now session reason revoked_by
    let st2 : EState :=
      { st1 with active_sessions :=
          st1.active_sessions.map (deactivateSession session_id) }
    .ok (es_record_security_event st2
      (sessionRevokedEvent now session_id session.user_id reason revoked_by))

/-- Stable insertion into a list ascending in `last_activity`: a row moves
ahead only of strictly later rows, so rows with equal `last_activity` keep
their stored order. -/
def insertByActivity (x : EnterpriseSession) :
    List EnterpriseSession → List EnterpriseSession
  | [] => [x]
  | y :: ys =>
    if x.last_activity ≤ y.last_activity then x :: y :: ys
    else y :: insertByActivity x ys

/-- Model of `ORDER BY last_activity ASC` (stable in stored order). -/
def sortByActivity (l : List EnterpriseSession) : List EnterpriseSession :=
  l.foldr insertByActivity []

/-- Revoke each listed session id in turn, propagating the first error
(the `for` loop with `?` in `enforce_session_limits`). -/
def es_revokeList (st : EState) (now : Int) (sids : List String) (reason : String) :
    Except String EState :=
  match sids with
  | [] => .ok st
  | sid :: rest =>
    match es_revoke_session st now sid reason none with
    | .error e => .error e
    | .ok st1 => es_revokeList st1 now rest reason

/-- `EnterpriseSessionManager::enforce_session_limits`: count the user's
active unexpired sessions; if at or above the limit, revoke the first
`count - limit + 1` of the user's active sessions ordered by
`last_activity` ascending (the eviction query does not filter on expiry);
then the same per device fingerprint. -/
def es_enforce_session_limits (st : EState) (now : Int) (user_id : String)
    (device_fp : Option String) : Except String EState :=
  let limits := (st.session_limits.find? (fun l => l.user_id == user_id)).getD
    (defaultSessionLimits user_id now)
  let current_sessions : Int := (st.active_sessions.filter
    (fun s => s.user_id == user_id && s.is_active && decide (now < s.expires_at))).length
  let afterConcurrent : Except String EState :=
    if limits.max_concurrent_sessions ≤ current_sessions then
      let oldest_sessions := ((sortByActivity (st.active_sessions.filter
          (fun s => s.user_id == user_id && s.is_active))).take
            (current_sessions - limits.max_concurrent_sessions + 1).toNat).map
              (fun s => s.session_id)
      es_revokeList st now oldest_sessions "concurrent_session_limit"
    else .ok st
  match afterConcurrent with
  | .error e => .error e
  | .ok st1 =>
    match device_fp with
    | none => .ok st1
    | some fp =>
      let device_sessions : Int := (st1.active_sessions.filter
        (fun s => s.user_id == user_id && s.device_fingerprint == some fp &&
          s.is_active && decide (now < s.expires_at))).length
      if limits.max_sessions_per_device ≤ device_sessions then
        let oldest_device := ((sortByActivity (st1.active_sessions.filter
            (fun s => s.user_id == user_id && s.device_fingerprint == some fp &&
              s.is_active))).take
              (device_sessions - limits.max_sessions_per_device + 1).toNat).map
                (fun s => s.session_id)
        es_revokeList st1 now oldest_device "device_session_limit"
      else .ok st1

/-- The active session row inserted by `create_session` (7-day expiry). -/
def newSessionRecord (now : Int) (request : CreateSessionRequest)
    (session_id access_jti refresh_jti : String) : EnterpriseSession :=
  { id := "", session_id := session_id, user_id := request.user_id,
    access_token_jti := access_jti, refresh_token_jti := refresh_jti,
    created_at := now, last_activity := now, expires_at := now + 604800,
    ip_address := request.ip_address, user_agent := request.user_agent,
    device_fingerprint := request.device_fingerprint,
    device_name := request.device_name, device_type := request.device_type,
    location_country := request.location_country,
    location_region := request.location_region,
    location_city := request.location_city, is_active := true,
    created_by_ip := request.ip_address, last_seen_ip := request.ip_address,
    session_flags := some "" }

/-- `EnterpriseSessionManager::create_session`, restricted to the tables
the claims read: enforce limits, then insert the new active session row.
`update_device_trust` writes only `trusted_devices`, `record_analytics`
only `token_analytics`, and JWT generation touches no table;
`check_security_events` appends only security-event rows, which no claim
about creation reads. -/
def es_create_session (st : EState) (now : Int) (request : CreateSessionRequest)
    (session_id access_jti refresh_jti : String) :
    Except String (EnterpriseSession × EState) :=
  match es_enforce_session_limits st now request.user_id request.device_fingerprint with
  | .error e => .error e
  | .ok st1 =>
    let session := newSessionRecord now request session_id access_jti refresh_jti
    .ok (session, { st1 with active_sessions := st1.active_sessions ++ [session] })

/-- Severity points of `calculate_risk_score`'s event match. -/
def severityPoints (sev : String) : Int :=
  if sev = "critical" then 40
  else if sev = "high" then 25
  else if sev = "medium" then 15
  else if sev = "low" then 5
  else 0

/-- `EnterpriseSessionManager::calculate_risk_score`: additive risk,
capped at 100.  Every event in the supplied list contributes severity
points; the source does not inspect the `resolved` flag here. -/
def calculate_risk_score (now : Int) (session : EnterpriseSession)
    (events : List SessionSecurityEvent) : Int :=
  let risk1 : Int := if session.device_fingerprint = none then 0 + 20 else 0
  let risk2 := if session.location_country = none then risk1 + 10 else risk1
  let risk3 := events.foldl
    (fun acc e =>
      if e.severity = "critical" then acc + 40
      else if e.severity = "high" then acc + 25
      else if e.severity = "medium" then acc + 15
      else if e.severity = "low" then acc + 5
      else acc) risk2
  let risk4 := if 604800 < now - session.created_at then risk3 + 10 else risk3
  let risk5 := if 86400 < now - session.last_activity then risk4 + 15 else risk4
  min risk5 100

/-- Stable insertion descending in `timestamp`. -/
def insertByTimestampDesc (x : SessionSecurityEvent) :
    List SessionSecurityEvent → List SessionSecurityEvent
  | [] => [x]
  | y :: ys =>
    if y.timestamp < x.timestamp then x :: y :: ys
    else y :: insertByTimestampDesc x ys

/-- Model of `ORDER BY timestamp DESC`. -/
def sortByTimestampDesc (l : List SessionSecurityEvent) : List SessionSecurityEvent :=
  l.foldr insertByTimestampDesc []

/-- `EnterpriseSessionManager::get_session_security_events`: the session's
events of the last 7 days, newest first. -/
def get_session_security_events (st : EState) (now : Int) (session_id : String) :
    List SessionSecurityEvent :=
  sortByTimestampDesc (st.session_security_events.filter
    (fun e => e.session_id == session_id && decide (now - 604800 < e.timestamp)))

/-- The risk formula as the spec words it (claim C6): identical to the
source except that only unresolved events (resolved flag not set) earn
severity points.  Stated for comparison with `calculate_risk_score`. -/
def riskScoreSpecUnresolved (now : Int) (session : EnterpriseSession)
    (events : List SessionSecurityEvent) : Int :=
  min
    ((if session.device_fingerprint = none then (20 : Int) else 0)
      + (if session.location_country = none then 10 else 0)
      + (events.map (fun e =>
          if e.resolved.getD false = false then severityPoints e.severity else 0)).sum
      + (if 604800 < now - session.created_at then 10 else 0)
      + (if 86400 < now - session.last_activity then 15 else 0))
    100

/-- The additive closed form actually computed by the source: every event
in the window contributes, resolved or not. -/
def riskScoreAllEvents (now : Int) (session : EnterpriseSession)
    (events : List SessionSecurityEvent) : Int :=
  min
    ((if session.device_fingerprint = none then (20 : Int) else 0)
      + (if session.location_country = none then 10 else 0)
      + (events.map (fun e => severityPoints e.severity)).sum
      + (if 604800 < now - session.created_at then 10 else 0)
      + (if 86400 < now - session.last_activity then 15 else 0))
    100

/-! ## Audit log (audit.rs)

The HMAC-SHA256-then-hex step (`hmac::sign` + `hex::encode` under
`AUDIT_SECRET`) is an external primitive and is carried as a function
parameter `mac : String → String → String` (secret, data ↦ tag).
`DateTime::to_rfc3339` is an injective timestamp formatter; the model
renders the integer timestamp with `toString`, which is likewise
injective — only injectivity of the formatter is used. -/

/-- `AuditEventType` enumeration. -/
inductive AuditEventType where
  | UserLogin | UserLogout | UserRegistration | PasswordCreated | PasswordUpdated
  | PasswordDeleted | PasswordViewed | FolderCreated | FolderUpdated | FolderDeleted
  | ShareCreated | ShareRemoved | PasswordReset | TokenRefresh | LoginFailed
  | UnauthorizedAccess | DataExport | DataImport
deriving DecidableEq

/-- `format!("{:?}", event_type)`. -/
def auditEventTypeStr : AuditEventType → String
  | .UserLogin => "UserLogin"
  | .UserLogout => "UserLogout"
  | .UserRegistration => "UserRegistration"
  | .PasswordCreated => "PasswordCreated"
  | .PasswordUpdated => "PasswordUpdated"
  | .PasswordDeleted => "PasswordDeleted"
  | .PasswordViewed => "PasswordViewed"
  | .FolderCreated => "FolderCreated"
  | .FolderUpdated => "FolderUpdated"
  | .FolderDeleted => "FolderDeleted"
  | .ShareCreated => "ShareCreated"
  | .ShareRemoved => "ShareRemoved"
  | .PasswordReset => "PasswordReset"
  | .TokenRefresh => "TokenRefresh"
  | .LoginFailed => "LoginFailed"
  | .UnauthorizedAccess => "UnauthorizedAccess"
  | .DataExport => "DataExport"
  | .DataImport => "DataImport"

/-- `parse_event_type`: inverse of the debug formatting, failing on
unknown strings. -/
def parse_event_type (s : String) : Except String AuditEventType :=
  if s = "UserLogin" then .ok .UserLogin
  else if s = "UserLogout" then .ok .UserLogout
  else if s = "UserRegistration" then .ok .UserRegistration
  else if s = "PasswordCreated" then .ok .PasswordCreated
  else if s = "PasswordUpdated" then .ok .PasswordUpdated
  else if s = "PasswordDeleted" then .ok .PasswordDeleted
  else if s = "PasswordViewed" then .ok .PasswordViewed
  else if s = "FolderCreated" then .ok .FolderCreated
  else if s = "FolderUpdated" then .ok .FolderUpdated
  else if s = "FolderDeleted" then .ok .FolderDeleted
  else if s = "ShareCreated" then .ok .ShareCreated
  else if s = "ShareRemoved" then .ok .ShareRemoved
  else if s = "PasswordReset" then .ok .PasswordReset
  else if s = "TokenRefresh" then .ok .TokenRefresh
  else if s = "LoginFailed" then .ok .LoginFailed
  else if s = "UnauthorizedAccess" then .ok .UnauthorizedAccess
  else if s = "DataExport" then .ok .DataExport
  else if s = "DataImport" then .ok .DataImport
  else .error ("Unknown event type: " ++ s)

/-- `AuditEvent` (audit.rs): the in-memory event before insertion.
`user_id`/`resource_id` are `Option<Uuid>` in the source; a rendered UUID
string is never empty. -/
structure AuditEvent where
  event_type : AuditEventType
  user_id : Option String
  resource_id : Option String
  ip_address : Option String
  user_agent : Option String
  details : Option String
  timestamp : Int
deriving DecidableEq

/-- `AuditLog`: the stored row, with the derived `integrity_hash`. -/
structure AuditLog where
  id : String
  event_type : String
  user_id : Option String
  resource_id : Option String
  ip_address : Option String
  user_agent : Option String
  details : Option String
  timestamp : Int
  integrity_hash : String
deriving DecidableEq

/-- `unwrap_or_default` on an optional string field. -/
def optStr (o : Option String) : String := o.getD ""

/-- Injective stand-in for `to_rfc3339` on the integer timestamp. -/
def tsStr (t : Int) : String := toString t

/-- The canonical pipe-separated serialization MACed by
`generate_integrity_hash`. -/
def auditLogData (e : AuditEvent) : String :=
  auditEventTypeStr e.event_type ++ "|" ++ optStr e.user_id ++ "|"
    ++ optStr e.resource_id ++ "|" ++ optStr e.ip_address ++ "|"
    ++ optStr e.user_agent ++ "|" ++ optStr e.details ++ "|" ++ tsStr e.timestamp

/-- `generate_integrity_hash`: keyed MAC over the canonical serialization
(the source additionally hex-encodes; that is folded into `mac`). -/
def generate_integrity_hash (mac : String → String → String) (secret : String)
    (e : AuditEvent) : String :=
  mac secret (auditLogData e)

/-- The row stored by `log_event` for an event (id is a fresh v4 UUID,
never read back by verification). -/
def mkAuditLog (mac : String → String → String) (secret id : String)
    (e : AuditEvent) : AuditLog :=
  { id := id, event_type := auditEventTypeStr e.event_type,
    user_id := e.user_id, resource_id := e.resource_id,
    ip_address := e.ip_address, user_agent := e.user_agent,
    details := e.details, timestamp := e.timestamp,
    integrity_hash := generate_integrity_hash mac secret e }

/-- `verify_log_integrity`: re-parse the stored event type, rebuild the
event from the stored fields, recompute the tag and compare. -/
def verify_log_integrity (mac : String → String → String) (secret : String)
    (log : AuditLog) : Except String Bool :=
  match parse_event_type log.event_type with
  | .error e => .error e
  | .ok ty =>
    let event : AuditEvent :=
      { event_type := ty, user_id := log.user_id, resource_id := log.resource_id,
        ip_address := log.ip_address, user_agent := log.user_agent,
        details := log.details, timestamp := log.timestamp }
    .ok (generate_integrity_hash mac secret event == log.integrity_hash)

/-! ## Concrete sample objects used by witnesses and counterexamples -/

/-- Whether a refresh call succeeded (projection helper for closed
statements). -/
def refreshSucceeded (r : Except RefreshError TokenPair × TMState) : Bool :=
  match r.1 with
  | .ok _ => true
  | .error _ => false

/-- A refresh-kind claim set issued at time 0 for user `user-1`. -/
def sampleRefreshClaims : EnhancedClaims :=
  { sub := "user-1", exp := 604800, iat := 0, jti := "jti-r0",
    token_type := "refresh", session_id := "sess-0", aud := "passq-auth",
    iss := "passq-auth", device_id := none, scope := ["refresh"] }

/-- The corresponding signed refresh token. -/
def sampleRefreshJwt : Jwt := { claims := sampleRefreshClaims, sig_key := "secret" }

/-- The active session holding `jti-a0`/`jti-r0`. -/
def sampleSession0 : ActiveSession :=
  { session_id := "sess-0", user_id := "user-1", access_token_jti := "jti-a0",
    refresh_token_jti := "jti-r0", created_at := 0, last_activity := 0,
    ip_address := none, user_agent := none, device_fingerprint := none }

/-- Token-manager state with that one session and an empty revocation
list. -/
def sampleTM0 : TMState :=
  { revoked_tokens := [], active_sessions := [("sess-0", sampleSession0)],
    token_analytics := [] }

/-- An enterprise session row for user `u1` (no device fingerprint, no
location), active until time 1000000. -/
def mkESession (sid : String) (la ca : Int) : EnterpriseSession :=
  { id := "", session_id := sid, user_id := "u1",
    access_token_jti := "a-" ++ sid, refresh_token_jti := "r-" ++ sid,
    created_at := ca, last_activity := la, expires_at := 1000000,
    ip_address := none, user_agent := none, device_fingerprint := none,
    device_name := none, device_type := none, location_country := none,
    location_region := none, location_city := none, is_active := true,
    created_by_ip := none, last_seen_ip := none, session_flags := none }

/-- Five active sessions for `u1`.  `es1` and `es2` tie on
`last_activity = 10`; `es1` was created later (`created_at = 100`) than
`es2` (`created_at = 50`) but is stored first. -/
def sampleEState5 : EState :=
  { active_sessions :=
      [mkESession "s1" 10 100, mkESession "s2" 10 50, mkESession "s3" 20 3,
       mkESession "s4" 30 4, mkESession "s5" 40 5],
    revoked_tokens_db := [], session_security_events := [], session_limits := [] }

/-- The 6th-session creation request for `u1`, without a device
fingerprint. -/
def sampleRequest : CreateSessionRequest :=
  { user_id := "u1", device_fingerprint := none, device_name := none,
    device_type := none, ip_address := none, user_agent := none,
    location_country := none, location_region := none, location_city := none }

/-- Active-session rows of a session-creation result. -/
def esResultSessions (r : Except String (EnterpriseSession × EState)) :
    List EnterpriseSession :=
  match r with
  | .ok pr => pr.2.active_sessions
  | .error _ => []

/-- A session with a device fingerprint and a known country, created and
last active at time 500. -/
def sampleRiskSession : EnterpriseSession :=
  { id := "", session_id := "rs1", user_id := "u1", access_token_jti := "a",
    refresh_token_jti := "r", created_at := 500, last_activity := 500,
    expires_at := 1000000, ip_address := none, user_agent := none,
    device_fingerprint := some "fp", device_name := none, device_type := none,
    location_country := some "DE", location_region := none, location_city := none,
    is_active := true, created_by_ip := none, last_seen_ip := none,
    session_flags := none }

/-- A resolved low-severity security event for that session, inside the
7-day window at `now = 1000`. -/
def sampleResolvedEvent : SessionSecurityEvent :=
  { id := "", session_id := "rs1", user_id := "u1",
    event_type := "session_revoked", severity := "low", timestamp := 900,
    ip_address := none, user_agent := none, description := none,
    action_taken := none, resolved := some true, resolved_at := some 900,
    resolved_by := none, metadata := none }

/-- Enterprise state holding only that resolved event. -/
def sampleRiskState : EState :=
  { active_sessions := [sampleRiskSession], revoked_tokens_db := [],
    session_security_events := [sampleResolvedEvent], session_limits := [] }

/-- Identity MAC: collision-free, usable to instantiate the audit
theorems. -/
def macId : String → String → String := fun _ d => d

/-- An audit event whose optional ip field is present but empty. -/
def sampleAuditEvent : AuditEvent :=
  { event_type := .UserLogin, user_id := some "u-1", resource_id := none,
    ip_address := some "", user_agent := none, details := some "ok",
    timestamp := 1700000000 }

/-- Its stored row under the identity MAC. -/
def sampleAuditLog : AuditLog := mkAuditLog macId "k" "id-1" sampleAuditEvent

/-- The same stored row with the empty ip string replaced by NULL
out-of-band. -/
def sampleAuditLogAltered : AuditLog := { sampleAuditLog with ip_address := none }

/-! ## Lemmas about the toy AEAD -/

theorem bsum_set (c : List Byte) (i : Nat) (b : Byte) (h : i < c.length) :
    bsum (c.set i b) = bsum c - c.get ⟨i, h⟩ + b := by
  induction c generalizing i with
  | nil => simp at h
  | cons x xs ih =>
    cases i with
    | zero => simp [bsum]; abel
    | succ n =>
      have hn : n < xs.length := by simpa using h
      simp [bsum, ih n hn]
      abel

theorem bsum_set_ne (c : List Byte) (i : Nat) (b : Byte) (h : i < c.length)
    (hb : b ≠ c.get ⟨i, h⟩) : bsum (c.set i b) ≠ bsum c := by
  rw [bsum_set c i b h]
  intro heq
  apply hb
  have h2 : bsum c - c.get ⟨i, h⟩ + b = bsum c - c.get ⟨i, h⟩ + c.get ⟨i, h⟩ := by
    rw [heq, sub_add_cancel]
  exact add_left_cancel h2

theorem toyEnc_length (n p : List Byte) : (toyEnc n p).length = p.length := by
  simp [toyEnc]

theorem toySeal_length (n p : List Byte) : (toySeal n p).length = p.length + 16 := by
  simp [toySeal, toyTag, toyEnc]

theorem toyDec_toyEnc (n p : List Byte) : toyDec n (toyEnc n p) = p := by
  simp [toyDec, toyEnc, List.map_map, Function.comp_def, add_sub_cancel_right]

theorem toyEnc_toyDec (n c : List Byte) : toyEnc n (toyDec n c) = c := by
  simp [toyDec, toyEnc, List.map_map, Function.comp_def, sub_add_cancel]

theorem toyOpen_toySeal (n p : List Byte) : toyOpen n (toySeal n p) = some p := by
  have hs : (toySeal n p).length = p.length + 16 := toySeal_length n p
  have he : (toyEnc n p).length = p.length := toyEnc_length n p
  unfold toyOpen
  rw [if_neg (by omega)]
  have htake : (toySeal n p).take ((toySeal n p).length - 16) = toyEnc n p := by
    rw [hs, Nat.add_sub_cancel]
    exact List.take_left' he
  have hdrop : (toySeal n p).drop ((toySeal n p).length - 16)
      = toyTag n (toyEnc n p) := by
    rw [hs, Nat.add_sub_cancel]
    exact List.drop_left' he
  simp [htake, hdrop, toyDec_toyEnc]

theorem toyOpen_eq_some (n d q : List Byte) (h : toyOpen n d = some q) :
    d = toySeal n q := by
  unfold toyOpen at h
  split at h
  · exact absurd h (by simp)
  · simp only [] at h
    split at h
    · rename_i ht
      injection h with h1
      subst h1
      unfold toySeal
      rw [toyEnc_toyDec, ← ht]
      exact (List.take_append_drop _ d).symm
    · exact absurd h (by simp)

theorem toyOpen_reject (n d : List Byte) (h : ∀ p, d ≠ toySeal n p) :
    toyOpen n d = none := by
  cases hr : toyOpen n d with
  | none => rfl
  | some q => exact absurd (toyOpen_eq_some n d q hr) (h q)

theorem replicate16_inj {x y : Byte} (h : List.replicate 16 x = List.replicate 16 y) :
    x = y := by
  have h2 := congrArg (fun l => l.head?) h
  simpa using h2

theorem toySeal_flip (n p : List Byte) (i : Nat) (b : Byte)
    (hi : i < (toySeal n p).length) (hb : b ≠ (toySeal n p).get ⟨i, hi⟩)
    (q : List Byte) : (toySeal n p).set i b ≠ toySeal n q := by
  intro heq
  have he : (toyEnc n p).length = p.length := toyEnc_length n p
  have heq2 : (toyEnc n p ++ toyTag n (toyEnc n p)).set i b
      = toyEnc n q ++ toyTag n (toyEnc n q) := heq
  have hql : (toyEnc n q).length = q.length := toyEnc_length n q
  have hlens : p.length + 16 = q.length + 16 := by
    have := congrArg List.length heq2
    simpa [toyTag, he, hql] using this
  by_cases hcase : i < (toyEnc n p).length
  · have hset : (toyEnc n p ++ toyTag n (toyEnc n p)).set i b
        = ((toyEnc n p).set i b) ++ toyTag n (toyEnc n p) :=
      List.set_append_left _ _ hcase
    rw [hset] at heq2
    have hinj := List.append_inj heq2 (by simp [he, hql]; omega)
    obtain ⟨h1, h2⟩ := hinj
    rw [← h1] at h2
    have hval : bsum (toyEnc n p) + bsum n = bsum ((toyEnc n p).set i b) + bsum n :=
      replicate16_inj h2
    have hsum : bsum ((toyEnc n p).set i b) = bsum (toyEnc n p) :=
      (add_right_cancel hval).symm
    have hbb : b ≠ (toyEnc n p).get ⟨i, hcase⟩ := by
      intro hx
      apply hb
      rw [hx]
      exact (List.getElem_append_left hcase).symm
    exact bsum_set_ne (toyEnc n p) i b hcase hbb hsum
  · have hile : (toyEnc n p).length ≤ i := Nat.le_of_not_lt hcase
    have hset : (toyEnc n p ++ toyTag n (toyEnc n p)).set i b
        = toyEnc n p ++ (toyTag n (toyEnc n p)).set (i - (toyEnc n p).length) b :=
      List.set_append_right _ _ hile
    rw [hset] at heq2
    have hinj := List.append_inj heq2 (by rw [he, hql]; omega)
    obtain ⟨h1, h2⟩ := hinj
    rw [← h1] at h2
    have hj : i - (toyEnc n p).length < (toyTag n (toyEnc n p)).length := by
      have hslen := toySeal_length n p
      have htl : (toyTag n (toyEnc n p)).length = 16 := by simp [toyTag]
      rw [htl]
      omega
    have h3 := congrArg (fun l => l[i - (toyEnc n p).length]?) h2
    simp only [List.getElem?_set_self hj, List.getElem?_eq_getElem hj] at h3
    injection h3 with h4
    apply hb
    have h5 : (toySeal n p).get ⟨i, hi⟩
        = (toyTag n (toyEnc n p)).get ⟨i - (toyEnc n p).length, hj⟩ := by
      show (toyEnc n p ++ toyTag n (toyEnc n p)).get ⟨i, hi⟩ = _
      simp only [List.get_eq_getElem]
      rw [List.getElem_append_right hile]
    rw [h5]
    simp only [List.get_eq_getElem]
    exact h4

/-- The toy AEAD meets the full ring contract. -/
theorem toyAead_sound : AeadSound toyAead :=
  { seal_length := toySeal_length,
    open_seal := toyOpen_toySeal,
    open_reject := toyOpen_reject,
    seal_flip := toySeal_flip }

/-! ## Claims about the envelope encryption service -/

/-- C2: for every byte payload `p` and every key meeting ring's
AES-256-GCM contract, `decrypt (encrypt p k) k = p`; and for every blob
produced by `encrypt` with any single byte of the ciphertext or
authentication-tag portion (index ≥ 12) changed, `decrypt` returns the
decryption-failure error — never a wrong plaintext. -/
theorem encrypt_decrypt_roundtrip_and_tamper (key : AeadKey) (h : AeadSound key)
    (p nonce_bytes : List Byte) (hn : nonce_bytes.length = 12) :
    decrypt (encrypt p key nonce_bytes) key = .ok p ∧
    ∀ i b, 12 ≤ i → ∀ hi : i < (encrypt p key nonce_bytes).length,
      b ≠ (encrypt p key nonce_bytes).get ⟨i, hi⟩ →
      decrypt ((encrypt p key nonce_bytes).set i b) key =
        .error "Decryption failed: ring::error::Unspecified" := by
  have hs := h.seal_length nonce_bytes p
  have htake : (encrypt p key nonce_bytes).take 12 = nonce_bytes := by
    simp only [encrypt]
    exact List.take_left' hn
  have hdrop : (encrypt p key nonce_bytes).drop 12
      = key.seal_in_place_append_tag nonce_bytes p := by
    simp only [encrypt]
    exact List.drop_left' hn
  constructor
  · unfold decrypt
    rw [if_neg (by simp only [encrypt, List.length_append, hn, hs]; omega)]
    simp only [htake, hdrop, h.open_seal]
  · intro i b h12 hi hb
    have hi2 : i < 12 + (p.length + 16) := by
      simpa only [encrypt, List.length_append, hn, hs] using hi
    have hsetapp : (encrypt p key nonce_bytes).set i b
        = nonce_bytes ++ (key.seal_in_place_append_tag nonce_bytes p).set (i - 12) b := by
      simp only [encrypt]
      rw [List.set_append_right _ _ (by rw [hn]; exact h12), hn]
    have hi3 : i - 12 < (key.seal_in_place_append_tag nonce_bytes p).length := by
      rw [hs]; omega
    have hb2 : b ≠ (key.seal_in_place_append_tag nonce_bytes p).get ⟨i - 12, hi3⟩ := by
      intro hx
      apply hb
      have hq : (encrypt p key nonce_bytes)[i]?
          = (key.seal_in_place_append_tag nonce_bytes p)[i - 12]? := by
        simp only [encrypt]
        rw [List.getElem?_append_right (by rw [hn]; exact h12), hn]
      rw [List.getElem?_eq_getElem hi, List.getElem?_eq_getElem hi3] at hq
      injection hq with hq2
      simp only [List.get_eq_getElem] at hx ⊢
      rw [hq2]
      exact hx
    unfold decrypt
    rw [hsetapp]
    rw [if_neg (by simp only [List.length_append, List.length_set, hn, hs]; omega)]
    have htake2 : (nonce_bytes ++
        (key.seal_in_place_append_tag nonce_bytes p).set (i - 12) b).take 12
        = nonce_bytes := List.take_left' hn
    have hdrop2 : (nonce_bytes ++
        (key.seal_in_place_append_tag nonce_bytes p).set (i - 12) b).drop 12
        = (key.seal_in_place_append_tag nonce_bytes p).set (i - 12) b :=
      List.drop_left' hn
    have hrej : key.open_in_place nonce_bytes
        ((key.seal_in_place_append_tag nonce_bytes p).set (i - 12) b) = none :=
      h.open_reject _ _ (fun q => h.seal_flip nonce_bytes p (i - 12) b hi3 hb2 q)
    simp only [htake2, hdrop2, hrej]

/-- C2 witness: the round trip and a concrete tamper, at the toy AEAD. -/
theorem encrypt_decrypt_roundtrip_and_tamper_witness :
    decrypt (encrypt [(5 : Byte), 7] toyAead (List.replicate 12 (0 : Byte))) toyAead
      = .ok [(5 : Byte), 7] ∧
    decrypt ((encrypt [(5 : Byte), 7] toyAead (List.replicate 12 (0 : Byte))).set 13 9)
      toyAead = .error "Decryption failed: ring::error::Unspecified" := by
  refine ⟨(encrypt_decrypt_roundtrip_and_tamper toyAead toyAead_sound
    [(5 : Byte), 7] (List.replicate 12 (0 : Byte)) (by decide)).1, ?_⟩
  exact (encrypt_decrypt_roundtrip_and_tamper toyAead toyAead_sound
    [(5 : Byte), 7] (List.replicate 12 (0 : Byte)) (by decide)).2 13 9 (by decide)
    (by decide) (by decide)

/-- C8: `encrypt` lays the blob out exactly as
`nonce(12) ++ ciphertext ++ tag(16)` — so its length is `len p + 28` —
and `decrypt` interprets exactly the first 12 bytes as the nonce and the
remainder as ciphertext-plus-tag, failing if tag verification of that
remainder fails. -/
theorem encrypt_blob_layout (key : AeadKey) (h : AeadSound key)
    (p nonce_bytes : List Byte) (hn : nonce_bytes.length = 12) :
    (encrypt p key nonce_bytes).length = p.length + 28 ∧
    (encrypt p key nonce_bytes).take 12 = nonce_bytes ∧
    (encrypt p key nonce_bytes).drop 12 = key.seal_in_place_append_tag nonce_bytes p ∧
    ((encrypt p key nonce_bytes).drop 12).length = p.length + 16 ∧
    ∀ blob : List Byte, 12 ≤ blob.length →
      decrypt blob key =
        match key.open_in_place (blob.take 12) (blob.drop 12) with
        | some d => .ok d
        | none => .error "Decryption failed: ring::error::Unspecified" := by
  have hs := h.seal_length nonce_bytes p
  have htake : (encrypt p key nonce_bytes).take 12 = nonce_bytes := by
    simp only [encrypt]
    exact List.take_left' hn
  have hdrop : (encrypt p key nonce_bytes).drop 12
      = key.seal_in_place_append_tag nonce_bytes p := by
    simp only [encrypt]
    exact List.drop_left' hn
  refine ⟨by simp only [encrypt, List.length_append, hn, hs]; omega, htake, hdrop,
    by rw [hdrop, hs], ?_⟩
  intro blob hblob
  unfold decrypt
  rw [if_neg (by omega)]

/-- C8 witness at the toy AEAD and a 3-byte plaintext. -/
theorem encrypt_blob_layout_witness :
    (encrypt [(1 : Byte), 2, 3] toyAead (List.replicate 12 (0 : Byte))).length = 31 := by
  exact (encrypt_blob_layout toyAead toyAead_sound [(1 : Byte), 2, 3]
    (List.replicate 12 (0 : Byte)) (by decide)).1

/-- C10: `decrypt` is total on arbitrary untrusted input: any blob shorter
than 12 bytes yields the too-short error, and any longer blob yields
either a plaintext or the decryption-failure error — never anything
else. -/
theorem decrypt_total_on_untrusted_input (key : AeadKey) (blob : List Byte) :
    (blob.length < 12 →
      decrypt blob key = .error "Encrypted data too short to contain nonce") ∧
    (12 ≤ blob.length →
      (∃ p, decrypt blob key = .ok p) ∨
      decrypt blob key = .error "Decryption failed: ring::error::Unspecified") := by
  constructor
  · intro hshort
    unfold decrypt
    rw [if_pos hshort]
  · intro hlong
    have hd : decrypt blob key =
        match key.open_in_place (blob.take 12) (blob.drop 12) with
        | some d => .ok d
        | none => .error "Decryption failed: ring::error::Unspecified" := by
      unfold decrypt
      rw [if_neg (by omega)]
    rw [hd]
    cases key.open_in_place (blob.take 12) (blob.drop 12) with
    | some d => exact Or.inl ⟨d, rfl⟩
    | none => exact Or.inr rfl

/-- C10 witness: a 2-byte blob is rejected with the too-short error. -/
theorem decrypt_total_on_untrusted_input_witness :
    decrypt [(1 : Byte), 2] toyAead = .error "Encrypted data too short to contain nonce" :=
  (decrypt_total_on_untrusted_input toyAead [(1 : Byte), 2]).1 (by decide)

/-! ## Lemmas about the association-list map -/

theorem mapLookup_erase {α : Type} (m : AssocMap α) (k key : String) :
    mapLookup (mapErase m k) key = if k = key then none else mapLookup m key := by
  induction m with
  | nil => simp [mapErase, mapLookup]
  | cons p rest ih =>
    obtain ⟨k1, v1⟩ := p
    by_cases h1 : k1 = k <;> by_cases h2 : k = key <;>
      simp_all [mapErase, mapLookup]

theorem mapLookup_insert {α : Type} (m : AssocMap α) (k key : String) (v : α) :
    mapLookup (mapInsert m k v) key = if k = key then some v else mapLookup m key := by
  by_cases h : k = key <;> simp [mapInsert, mapLookup, mapLookup_erase, h]

theorem mapLookup_insert_self {α : Type} (m : AssocMap α) (k : String) (v : α) :
    mapLookup (mapInsert m k v) k = some v := by
  simp [mapLookup_insert]

theorem mem_of_mem_mapErase {α : Type} {m : AssocMap α} {k : String}
    {p : String × α} (h : p ∈ mapErase m k) : p ∈ m ∧ p.1 ≠ k := by
  induction m with
  | nil => simp [mapErase] at h
  | cons q rest ih =>
    obtain ⟨k1, v1⟩ := q
    by_cases h1 : k1 = k
    · simp only [mapErase, if_pos h1] at h
      exact ⟨List.mem_cons_of_mem _ (ih h).1, (ih h).2⟩
    · simp only [mapErase, if_neg h1] at h
      rcases List.mem_cons.mp h with h2 | h2
      · subst h2
        exact ⟨List.mem_cons_self _ _, h1⟩
      · exact ⟨List.mem_cons_of_mem _ (ih h2).1, (ih h2).2⟩

theorem mem_mapInsert {α : Type} {m : AssocMap α} {k : String} {v : α}
    {p : String × α} (h : p ∈ mapInsert m k v) :
    p = (k, v) ∨ (p ∈ m ∧ p.1 ≠ k) := by
  rcases List.mem_cons.mp h with h1 | h1
  · exact Or.inl h1
  · exact Or.inr (mem_of_mem_mapErase h1)

theorem mapLookup_eq_none_of_filter {α : Type} (m : AssocMap α)
    (f : String × α → Bool) (k : String) (h : mapLookup m k = none) :
    mapLookup (m.filter f) k = none := by
  induction m with
  | nil => simp [mapLookup]
  | cons p rest ih =>
    obtain ⟨k1, v1⟩ := p
    by_cases h1 : k1 = k
    · simp [mapLookup, h1] at h
    · simp only [mapLookup, if_neg h1] at h
      cases hf : f (k1, v1) <;> simp [List.filter, hf, mapLookup, h1, ih h]

/-! ## Claims about the token manager -/

theorem jwt_decode_ok_claims {secret : String} {now : Int} {t : Jwt}
    {c : EnhancedClaims} (h : jwt_decode secret now t = .ok c) : c = t.claims := by
  unfold jwt_decode at h
  split_ifs at h
  injection h with h1
  exact h1.symm

theorem jwt_decode_ne_invalidToken (secret : String) (now : Int) (t : Jwt) :
    jwt_decode secret now t ≠ .error .invalidToken := by
  unfold jwt_decode
  split_ifs <;> simp

/-- C1: once `revoke_token` has been called with a token's jti, an entry
for it is present; and in every state that retains an entry for that jti,
`validate_enhanced_token` returns an error rather than the claim set —
revocation has priority over acceptance, regardless of signature validity
and expiry — and validation itself never changes the revocation list. -/
theorem revoked_token_never_validates (st : TMState) (rnow : Int)
    (uid ty reason : String) (t : Jwt) :
    mapLookup (revoke_token st rnow t.claims.jti uid ty reason).revoked_tokens
      t.claims.jti ≠ none ∧
    ∀ st2 : TMState, mapLookup st2.revoked_tokens t.claims.jti ≠ none →
      ∀ secret : String, ∀ now : Int,
        (∀ c, (validate_enhanced_token st2 secret now t).1 ≠ .ok c) ∧
        (validate_enhanced_token st2 secret now t).2.revoked_tokens
          = st2.revoked_tokens := by
  constructor
  · simp [revoke_token, record_token_analytics, mapLookup_insert_self]
  · intro st2 hrev secret now
    cases hd : jwt_decode secret now t with
    | error e =>
      constructor
      · intro c
        simp [validate_enhanced_token, hd]
      · simp [validate_enhanced_token, hd]
    | ok c =>
      have hc : c = t.claims := jwt_decode_ok_claims hd
      subst hc
      have hsome : (mapLookup st2.revoked_tokens t.claims.jti).isSome = true :=
        Option.isSome_iff_ne_none.mpr hrev
      constructor
      · intro c2
        simp [validate_enhanced_token, hd, hsome]
      · simp [validate_enhanced_token, hd, hsome]

/-- C1 witness: after revoking `jti-r0`, the entry exists and the sample
refresh token no longer validates to its claim set. -/
theorem revoked_token_never_validates_witness :
    mapLookup (revoke_token sampleTM0 0 sampleRefreshJwt.claims.jti "user-1" "refresh"
        "logout").revoked_tokens sampleRefreshJwt.claims.jti ≠ none ∧
    (validate_enhanced_token (revoke_token sampleTM0 0 sampleRefreshJwt.claims.jti
        "user-1" "refresh" "logout") "secret" 10 sampleRefreshJwt).1
      ≠ .ok sampleRefreshClaims := by
  refine ⟨(revoked_token_never_validates sampleTM0 0 "user-1" "refresh" "logout"
    sampleRefreshJwt).1, ?_⟩
  exact ((revoked_token_never_validates sampleTM0 0 "user-1" "refresh" "logout"
    sampleRefreshJwt).2 _ (by decide) "secret" 10).1 sampleRefreshClaims

/-- C4: the token codec's verify step (`jwt_decode`) takes no revocation
state: `validate_enhanced_token` factors as the pure verify step followed
by the explicit `revocationFilter` lookup, and consequently, under any two
revocation-registry states, whether a token passes verification — and
with which verification error it fails — is identical; only the
revocation verdict may differ. -/
theorem verify_independent_of_revocation_registry (secret : String) (now : Int)
    (t : Jwt) :
    (∀ st : TMState, (validate_enhanced_token st secret now t).1
        = revocationFilter st.revoked_tokens (jwt_decode secret now t)) ∧
    ∀ st1 st2 : TMState,
      ((validate_enhanced_token st1 secret now t).1 = .error .invalidSignature ↔
        (validate_enhanced_token st2 secret now t).1 = .error .invalidSignature) ∧
      ((validate_enhanced_token st1 secret now t).1 = .error .expiredSignature ↔
        (validate_enhanced_token st2 secret now t).1 = .error .expiredSignature) ∧
      (((∃ c, (validate_enhanced_token st1 secret now t).1 = .ok c) ∨
          (validate_enhanced_token st1 secret now t).1 = .error .invalidToken) ↔
        ((∃ c, (validate_enhanced_token st2 secret now t).1 = .ok c) ∨
          (validate_enhanced_token st2 secret now t).1 = .error .invalidToken)) := by
  have hfac : ∀ st : TMState, (validate_enhanced_token st secret now t).1
      = revocationFilter st.revoked_tokens (jwt_decode secret now t) := by
    intro st
    cases hd : jwt_decode secret now t with
    | error e => simp [validate_enhanced_token, revocationFilter, hd]
    | ok c =>
      cases hsome : (mapLookup st.revoked_tokens c.jti).isSome <;>
        simp [validate_enhanced_token, revocationFilter, hd, hsome]
  refine ⟨hfac, ?_⟩
  intro st1 st2
  rw [hfac st1, hfac st2]
  cases hd : jwt_decode secret now t with
  | error e =>
    have hne : e ≠ JwtError.invalidToken := by
      intro hx
      subst hx
      exact jwt_decode_ne_invalidToken secret now t hd
    simp [revocationFilter, hne]
  | ok c =>
    cases h1 : (mapLookup st1.revoked_tokens c.jti).isSome <;>
      cases h2 : (mapLookup st2.revoked_tokens c.jti).isSome <;>
        simp [revocationFilter, h1, h2]

/-- C3: rotating a valid, unexpired, unrevoked refresh token puts its jti
into the revocation list and returns a new pair whose refresh token (with
fresh jti) subsequently validates successfully; a second rotation call
with the same, now-revoked token fails with the revoked-token error
instead of returning a pair. -/
theorem refresh_rotation_revokes_and_blocks_replay
    (st : TMState) (secret : String) (now now2 : Int) (r : Jwt)
    (dev ip ua : Option String) (nsid najti nrjti : String)
    (hsig : r.sig_key = secret)
    (hexp : ¬ r.claims.exp < now - jwtLeeway)
    (hexp2 : ¬ r.claims.exp < now2 - jwtLeeway)
    (htype : r.claims.token_type = "refresh")
    (hunrev : mapLookup st.revoked_tokens r.claims.jti = none)
    (hfresh : mapLookup st.revoked_tokens nrjti = none)
    (hne : nrjti ≠ r.claims.jti)
    (hnow2 : ¬ now + 604800 < now2 - jwtLeeway) :
    ∃ pair : TokenPair,
      (refresh_token_pair st secret now r dev ip ua nsid najti nrjti).1
        = .ok pair ∧
      mapLookup (refresh_token_pair st secret now r dev ip ua nsid najti
        nrjti).2.revoked_tokens r.claims.jti ≠ none ∧
      (validate_enhanced_token
        (refresh_token_pair st secret now r dev ip ua nsid najti nrjti).2
        secret now2 pair.refresh_token).1 = .ok pair.refresh_token.claims ∧
      ∀ nsid2 najti2 nrjti2,
        (refresh_token_pair (refresh_token_pair st secret now r dev ip ua nsid
          najti nrjti).2 secret now2 r dev ip ua nsid2 najti2 nrjti2).1
          = .error (.jwt .invalidToken) := by
  have hd : jwt_decode secret now r = .ok r.claims := by
    unfold jwt_decode
    rw [if_neg (by simp [hsig]), if_neg hexp]
  have hd2 : jwt_decode secret now2 r = .ok r.claims := by
    unfold jwt_decode
    rw [if_neg (by simp [hsig]), if_neg hexp2]
  have hval : validate_enhanced_token st secret now r
      = (.ok r.claims,
        { st with active_sessions :=
            match mapLookup st.active_sessions r.claims.session_id with
            | some session =>
              mapInsert st.active_sessions r.claims.session_id
                { session with last_activity := now }
            | none => st.active_sessions }) := by
    simp [validate_enhanced_token, hd, hunrev]
  have hres1 : (refresh_token_pair st secret now r dev ip ua nsid najti nrjti).1
      = .ok
        { access_token :=
            { claims :=
                { sub := r.claims.sub, exp := now + 900, iat := now, jti := najti,
                  token_type := "access", session_id := nsid, aud := "passq-api",
                  iss := "passq-auth", device_id := dev, scope := ["read", "write"] },
              sig_key := secret },
          refresh_token :=
            { claims :=
                { sub := r.claims.sub, exp := now + 604800, iat := now, jti := nrjti,
                  token_type := "refresh", session_id := nsid, aud := "passq-auth",
                  iss := "passq-auth", device_id := dev, scope := ["refresh"] },
              sig_key := secret },
          expires_in := 900 } := by
    simp [refresh_token_pair, hval, htype, generate_enhanced_token_pair, jwt_encode]
  have hres2 : (refresh_token_pair st secret now r dev ip ua nsid najti
      nrjti).2.revoked_tokens
      = mapInsert st.revoked_tokens r.claims.jti
          { jti := r.claims.jti, user_id := r.claims.sub, token_type := "refresh",
            revoked_at := now, expires_at := now + 2592000,
            reason := "token_rotation" } := by
    simp [refresh_token_pair, hval, htype, revoke_token,
      generate_enhanced_token_pair, record_token_analytics]
  refine ⟨_, hres1, ?_, ?_, ?_⟩
  · rw [hres2, mapLookup_insert_self]
    simp
  · have hlooknew : mapLookup (refresh_token_pair st secret now r dev ip ua nsid
        najti nrjti).2.revoked_tokens nrjti = none := by
      rw [hres2, mapLookup_insert]
      rw [if_neg (fun hx => hne hx.symm)]
      exact hfresh
    have hdnew : jwt_decode secret now2
        ({ claims :=
            { sub := r.claims.sub, exp := now + 604800, iat := now, jti := nrjti,
              token_type := "refresh", session_id := nsid, aud := "passq-auth",
              iss := "passq-auth", device_id := dev, scope := ["refresh"] },
           sig_key := secret } : Jwt)
        = .ok
          { sub := r.claims.sub, exp := now + 604800, iat := now, jti := nrjti,
            token_type := "refresh", session_id := nsid, aud := "passq-auth",
            iss := "passq-auth", device_id := dev, scope := ["refresh"] } := by
      unfold jwt_decode
      rw [if_neg (by simp), if_neg (by simpa using hnow2)]
    simp [validate_enhanced_token, hdnew, hlooknew]
  · intro nsid2 najti2 nrjti2
    set stPost := (refresh_token_pair st secret now r dev ip ua nsid najti
      nrjti).2 with hstPost
    have hlook : (mapLookup stPost.revoked_tokens r.claims.jti).isSome = true := by
      rw [hstPost, hres2, mapLookup_insert_self]
      rfl
    have hvalPost : validate_enhanced_token stPost secret now2 r
        = (.error .invalidToken, stPost) := by
      simp [validate_enhanced_token, hd2, hlook]
    simp [refresh_token_pair, hvalPost]

/-- C3 witness: the concrete rotation scenario at the sample state. -/
theorem refresh_rotation_revokes_and_blocks_replay_witness :
    ∃ pair : TokenPair,
      (refresh_token_pair sampleTM0 "secret" 0 sampleRefreshJwt none none none
        "sess-1" "jti-a1" "jti-r1").1 = .ok pair ∧
      mapLookup (refresh_token_pair sampleTM0 "secret" 0 sampleRefreshJwt none none
        none "sess-1" "jti-a1" "jti-r1").2.revoked_tokens
        sampleRefreshJwt.claims.jti ≠ none ∧
      (validate_enhanced_token (refresh_token_pair sampleTM0 "secret" 0
        sampleRefreshJwt none none none "sess-1" "jti-a1" "jti-r1").2 "secret" 5
        pair.refresh_token).1 = .ok pair.refresh_token.claims ∧
      ∀ nsid2 najti2 nrjti2,
        (refresh_token_pair (refresh_token_pair sampleTM0 "secret" 0
          sampleRefreshJwt none none none "sess-1" "jti-a1" "jti-r1").2 "secret" 5
          sampleRefreshJwt none none none nsid2 najti2 nrjti2).1
          = .error (.jwt .invalidToken) :=
  refresh_rotation_revokes_and_blocks_replay sampleTM0 "secret" 0 5 sampleRefreshJwt
    none none none "sess-1" "jti-a1" "jti-r1" (by decide) (by decide) (by decide)
    (by decide) (by decide) (by decide) (by decide) (by decide)

theorem mapLookup_mem {α : Type} {m : AssocMap α} {k : String} {v : α}
    (h : mapLookup m k = some v) : (k, v) ∈ m := by
  induction m with
  | nil => simp [mapLookup] at h
  | cons p rest ih =>
    obtain ⟨k1, v1⟩ := p
    by_cases h1 : k1 = k
    · subst h1
      simp only [mapLookup, if_pos rfl] at h
      injection h with h2
      subst h2
      exact List.mem_cons_self _ _
    · simp only [mapLookup, if_neg h1] at h
      exact List.mem_cons_of_mem _ (ih h)

/-- C7 counterexample: the sample state satisfies the invariant; one
successful rotation of its refresh token leaves the superseded session
stored while its refresh jti is revoked, so the invariant fails in the
post state. -/
theorem rotation_breaks_session_invariant_counterexample :
    sessionsUnrevoked sampleTM0 ∧
    refreshSucceeded (refresh_token_pair sampleTM0 "secret" 0 sampleRefreshJwt none
      none none "sess-1" "jti-a1" "jti-r1") = true ∧
    ¬ sessionsUnrevoked (refresh_token_pair sampleTM0 "secret" 0 sampleRefreshJwt
      none none none "sess-1" "jti-a1" "jti-r1").2 := by
  refine ⟨?_, by decide, ?_⟩
  · unfold sessionsUnrevoked
    decide
  · unfold sessionsUnrevoked
    decide

theorem revoke_all_fold_aux (now : Int) (user_id reason : String) :
    ∀ (L : List (String × ActiveSession)) (st : TMState),
      sessionsUnrevoked st →
      (∀ q ∈ st.active_sessions, ∀ p ∈ L, q.1 ≠ p.1 →
        q.2.access_token_jti ≠ p.2.access_token_jti ∧
        q.2.access_token_jti ≠ p.2.refresh_token_jti ∧
        q.2.refresh_token_jti ≠ p.2.access_token_jti ∧
        q.2.refresh_token_jti ≠ p.2.refresh_token_jti) →
      sessionsUnrevoked (L.foldl
        (fun acc p =>
          let acc1 := revoke_token acc now p.2.access_token_jti user_id "access" reason
          let acc2 := revoke_token acc1 now p.2.refresh_token_jti user_id "refresh"
            reason
          { acc2 with active_sessions := mapErase acc2.active_sessions p.1 }) st) := by
  intro L
  induction L with
  | nil => intro st hinv _; simpa using hinv
  | cons p L ih =>
    intro st hinv hdis
    rw [List.foldl_cons]
    apply ih
    · intro q hq
      simp only [revoke_token, record_token_analytics] at hq ⊢
      obtain ⟨hqm, hqne⟩ := mem_of_mem_mapErase hq
      have hdq := hdis q hqm p (List.mem_cons_self _ _) hqne
      have hq0 := hinv q hqm
      constructor
      · rw [mapLookup_insert, if_neg (fun hx => hdq.2.1 hx.symm),
          mapLookup_insert, if_neg (fun hx => hdq.1 hx.symm)]
        exact hq0.1
      · rw [mapLookup_insert, if_neg (fun hx => hdq.2.2.2 hx.symm),
          mapLookup_insert, if_neg (fun hx => hdq.2.2.1 hx.symm)]
        exact hq0.2
    · intro q hq p2 hp2 hne
      simp only [revoke_token, record_token_analytics] at hq
      obtain ⟨hqm, _⟩ := mem_of_mem_mapErase hq
      exact hdis q hqm p2 (List.mem_cons_of_mem _ hp2) hne

/-- C7 (amended): the invariant "every stored session references only
unrevoked token ids" is preserved by token-pair generation with fresh
jtis, by validation, by session revocation, by revoke-all and by cleanup
(the latter two under pairwise-distinct jtis, which v4-UUID jtis provide);
rotation however is the exception the claim does not survive: a
successful `refresh_token_pair` leaves the superseded session record
stored while its old refresh jti gains a revocation entry, violating the
invariant. -/
theorem session_invariant_preservation_except_rotation
    (st : TMState) (secret : String) (now : Int) (hinv : sessionsUnrevoked st) :
    (∀ user_id session_id dev ip ua ajti rjti,
      mapLookup st.revoked_tokens ajti = none →
      mapLookup st.revoked_tokens rjti = none →
      sessionsUnrevoked (generate_enhanced_token_pair st secret now user_id
        session_id dev ip ua ajti rjti).2) ∧
    (∀ t : Jwt, sessionsUnrevoked (validate_enhanced_token st secret now t).2) ∧
    (∀ session_id reason, sessionsJtiDisjoint st →
      sessionsUnrevoked (tm_revoke_session st now session_id reason).2) ∧
    (∀ user_id reason, sessionsJtiDisjoint st →
      sessionsUnrevoked (revoke_all_user_tokens st now user_id reason)) ∧
    sessionsUnrevoked (cleanup_expired_tokens st now) ∧
    (∀ r : Jwt, ∀ dev ip ua : Option String, ∀ nsid najti nrjti sid : String,
      ∀ s : ActiveSession,
      r.sig_key = secret → ¬ r.claims.exp < now - jwtLeeway →
      r.claims.token_type = "refresh" →
      mapLookup st.revoked_tokens r.claims.jti = none →
      mapLookup st.active_sessions sid = some s →
      s.refresh_token_jti = r.claims.jti → sid ≠ nsid →
      ¬ sessionsUnrevoked
        (refresh_token_pair st secret now r dev ip ua nsid najti nrjti).2) := by
  refine ⟨?_, ?_, ?_, ?_, ?_, ?_⟩
  · -- generation with fresh jtis
    intro user_id session_id dev ip ua ajti rjti ha hr
    intro p hp
    simp only [generate_enhanced_token_pair, record_token_analytics] at hp ⊢
    rcases mem_mapInsert hp with h1 | h1
    · subst h1
      exact ⟨ha, hr⟩
    · exact hinv p h1.1
  · -- validation
    intro t
    cases hd : jwt_decode secret now t with
    | error e =>
      simpa [validate_enhanced_token, hd] using hinv
    | ok c =>
      cases hsome : (mapLookup st.revoked_tokens c.jti).isSome with
      | true => simpa [validate_enhanced_token, hd, hsome] using hinv
      | false =>
        intro p hp
        simp only [validate_enhanced_token, hd, hsome] at hp ⊢
        cases hlook : mapLookup st.active_sessions c.session_id with
        | none =>
          rw [hlook] at hp
          exact hinv p hp
        | some sess =>
          rw [hlook] at hp
          rcases mem_mapInsert hp with h1 | h1
          · subst h1
            exact hinv (c.session_id, sess) (mapLookup_mem hlook)
          · exact hinv p h1.1
  · -- session revocation
    intro session_id reason hdis
    cases hlook : mapLookup st.active_sessions session_id with
    | none =>
      simpa [tm_revoke_session, hlook] using hinv
    | some s =>
      intro p hp
      simp only [tm_revoke_session, hlook, revoke_token,
        record_token_analytics] at hp ⊢
      obtain ⟨hpm, hpne⟩ := mem_of_mem_mapErase hp
      have hds := hdis p hpm (session_id, s) (mapLookup_mem hlook) hpne
      have hp0 := hinv p hpm
      constructor
      · rw [mapLookup_insert, if_neg (fun hx => hds.2.1 hx.symm),
          mapLookup_insert, if_neg (fun hx => hds.1 hx.symm)]
        exact hp0.1
      · rw [mapLookup_insert, if_neg (fun hx => hds.2.2.2 hx.symm),
          mapLookup_insert, if_neg (fun hx => hds.2.2.1 hx.symm)]
        exact hp0.2
  · -- revoke-all
    intro user_id reason hdis
    simp only [revoke_all_user_tokens]
    apply revoke_all_fold_aux
    · exact hinv
    · intro q hq p hp hne
      exact hdis q hq p (List.mem_of_mem_filter hp) hne
  · -- cleanup
    intro p hp
    simp only [cleanup_expired_tokens] at hp ⊢
    have hpm := List.mem_of_mem_filter hp
    have hp0 := hinv p hpm
    exact ⟨mapLookup_eq_none_of_filter _ _ _ hp0.1,
      mapLookup_eq_none_of_filter _ _ _ hp0.2⟩
  · -- rotation violates the invariant
    intro r dev ip ua nsid najti nrjti sid s hsig hexp htype hunrev hlooksid hrjti
      hnsid
    have hd : jwt_decode secret now r = .ok r.claims := by
      unfold jwt_decode
      rw [if_neg (by simp [hsig]), if_neg hexp]
    have hval : validate_enhanced_token st secret now r
        = (.ok r.claims,
          { st with active_sessions :=
              match mapLookup st.active_sessions r.claims.session_id with
              | some session =>
                mapInsert st.active_sessions r.claims.session_id
                  { session with last_activity := now }
              | none => st.active_sessions }) := by
      simp [validate_enhanced_token, hd, hunrev]
    have hrev : (refresh_token_pair st secret now r dev ip ua nsid najti
        nrjti).2.revoked_tokens
        = mapInsert st.revoked_tokens r.claims.jti
            { jti := r.claims.jti, user_id := r.claims.sub, token_type := "refresh",
              revoked_at := now, expires_at := now + 2592000,
              reason := "token_rotation" } := by
      simp [refresh_token_pair, hval, htype, revoke_token,
        generate_enhanced_token_pair, record_token_analytics]
    have hsess : (refresh_token_pair st secret now r dev ip ua nsid najti
        nrjti).2.active_sessions
        = mapInsert
            (match mapLookup st.active_sessions r.claims.session_id with
             | some session =>
               mapInsert st.active_sessions r.claims.session_id
                 { session with last_activity := now }
             | none => st.active_sessions) nsid
            { session_id := nsid, user_id := r.claims.sub,
              access_token_jti := najti, refresh_token_jti := nrjti,
              created_at := now, last_activity := now, ip_address := ip,
              user_agent := ua, device_fingerprint := dev } := by
      simp [refresh_token_pair, hval, htype, revoke_token,
        generate_enhanced_token_pair, record_token_analytics]
    have hbump : ∃ s2 : ActiveSession,
        mapLookup
          (match mapLookup st.active_sessions r.claims.session_id with
           | some session =>
             mapInsert st.active_sessions r.claims.session_id
               { session with last_activity := now }
           | none => st.active_sessions) sid = some s2 ∧
        s2.refresh_token_jti = s.refresh_token_jti := by
      by_cases hcs : r.claims.session_id = sid
      · subst hcs
        rw [hlooksid]
        exact ⟨_, mapLookup_insert_self _ _ _, rfl⟩
      · cases hlook2 : mapLookup st.active_sessions r.claims.session_id with
        | none => exact ⟨s, hlooksid, rfl⟩
        | some sess =>
          refine ⟨s, ?_, rfl⟩
          rw [mapLookup_insert, if_neg hcs]
          exact hlooksid
    obtain ⟨s2, hs2look, hs2refresh⟩ := hbump
    intro hinvPost
    have hlookPost : mapLookup (refresh_token_pair st secret now r dev ip ua nsid
        najti nrjti).2.active_sessions sid = some s2 := by
      rw [hsess, mapLookup_insert, if_neg (fun hx => hnsid hx.symm)]
      exact hs2look
    have hmem := mapLookup_mem hlookPost
    have hnone := (hinvPost _ hmem).2
    rw [hs2refresh, hrjti, hrev, mapLookup_insert_self] at hnone
    cases hnone

/-- C7 witness: the preserved-operation half at the sample state
(cleanup conjunct; hypothesis discharged concretely). -/
theorem session_invariant_preservation_witness :
    sessionsUnrevoked (cleanup_expired_tokens sampleTM0 0) :=
  (session_invariant_preservation_except_rotation sampleTM0 "secret" 0
    (by unfold sessionsUnrevoked; decide)).2.2.2.2.1

/-- C6 counterexample: the claim counts only unresolved events, but the
source counts every event in the 7-day window: for the sample session
with one already-resolved low-severity event the source computes 5 while
the claim's formula gives 0. -/
theorem risk_score_counts_resolved_events_counterexample :
    calculate_risk_score 1000 sampleRiskSession
      (get_session_security_events sampleRiskState 1000 "rs1") = 5 ∧
    riskScoreSpecUnresolved 1000 sampleRiskSession
      (get_session_security_events sampleRiskState 1000 "rs1") = 0 ∧
    calculate_risk_score 1000 sampleRiskSession
        (get_session_security_events sampleRiskState 1000 "rs1")
      ≠ riskScoreSpecUnresolved 1000 sampleRiskSession
        (get_session_security_events sampleRiskState 1000 "rs1") := by
  exact ⟨by decide, by decide, by decide⟩

theorem risk_event_foldl (events : List SessionSecurityEvent) (acc : Int) :
    events.foldl
      (fun a e =>
        if e.severity = "critical" then a + 40
        else if e.severity = "high" then a + 25
        else if e.severity = "medium" then a + 15
        else if e.severity = "low" then a + 5
        else a) acc
    = acc + (events.map (fun e => severityPoints e.severity)).sum := by
  induction events generalizing acc with
  | nil => simp
  | cons e es ih =>
    rw [List.foldl_cons, ih]
    simp only [List.map_cons, List.sum_cons, severityPoints]
    split_ifs <;> ring

/-- C6 (amended): the risk score is additive and capped at 100 — +20 when
the session has no device fingerprint, +10 when it has no location
country, plus severity points (critical +40, high +25, medium +15,
low +5) for every security event of the 7-day lookback window regardless
of its resolution state, +10 when the session is older than 7 days, and
+15 after more than 24 hours without activity. -/
theorem risk_score_additive_formula (now : Int) (session : EnterpriseSession)
    (st : EState) (sid : String) :
    calculate_risk_score now session (get_session_security_events st now sid)
      = riskScoreAllEvents now session (get_session_security_events st now sid) := by
  generalize get_session_security_events st now sid = events
  unfold calculate_risk_score riskScoreAllEvents
  simp only [risk_event_foldl]
  congr 1
  split_ifs <;> ring

/-! ## Lemmas about the modelled ORDER BY and the session table -/

theorem insertByActivity_eq (x : EnterpriseSession) (l : List EnterpriseSession) :
    insertByActivity x l
      = List.orderedInsert (fun a b => a.last_activity ≤ b.last_activity) x l := by
  induction l with
  | nil => rfl
  | cons y ys ih => simp only [insertByActivity, List.orderedInsert, ih]

theorem sortByActivity_eq (l : List EnterpriseSession) :
    sortByActivity l
      = List.insertionSort (fun a b => a.last_activity ≤ b.last_activity) l := by
  induction l with
  | nil => rfl
  | cons a t ih =>
    show insertByActivity a (sortByActivity t) = _
    rw [insertByActivity_eq, ih]
    simp [List.insertionSort]

theorem sortByActivity_perm (l : List EnterpriseSession) :
    List.Perm (sortByActivity l) l := by
  rw [sortByActivity_eq]
  exact List.perm_insertionSort _ l

theorem sortByActivity_sorted (l : List EnterpriseSession) :
    (sortByActivity l).Sorted (fun a b => a.last_activity ≤ b.last_activity) := by
  rw [sortByActivity_eq]
  haveI : IsTotal EnterpriseSession (fun a b => a.last_activity ≤ b.last_activity) :=
    ⟨fun a b => Int.le_total _ _⟩
  haveI : IsTrans EnterpriseSession (fun a b => a.last_activity ≤ b.last_activity) :=
    ⟨fun _ _ _ h1 h2 => le_trans h1 h2⟩
  exact List.sorted_insertionSort _ l

theorem find?_session_id_unique (l : List EnterpriseSession) (e : EnterpriseSession)
    (hnd : (l.map (fun s => s.session_id)).Nodup) (he : e ∈ l) :
    l.find? (fun s => s.session_id == e.session_id) = some e := by
  induction l with
  | nil => simp at he
  | cons a t ih =>
    simp only [List.map_cons, List.nodup_cons] at hnd
    rcases List.mem_cons.mp he with h1 | h1
    · subst h1
      exact List.find?_cons_of_pos _ (by simp)
    · have hne : ¬ (a.session_id == e.session_id) = true := by
        intro hx
        apply hnd.1
        rw [show a.session_id = e.session_id from by simpa using hx]
        exact List.mem_map_of_mem _ h1
      rw [@List.find?_cons_of_neg _ (fun s => s.session_id == e.session_id) a t hne]
      exact ih hnd.2 h1

theorem filter_ne_sid_length (l : List EnterpriseSession) (e : EnterpriseSession)
    (hnd : (l.map (fun s => s.session_id)).Nodup) (he : e ∈ l) :
    (l.filter (fun s => s.session_id != e.session_id)).length + 1 = l.length := by
  induction l with
  | nil => simp at he
  | cons a t ih =>
    simp only [List.map_cons, List.nodup_cons] at hnd
    rcases List.mem_cons.mp he with h1 | h1
    · subst h1
      have ht : t.filter (fun s => s.session_id != e.session_id) = t := by
        rw [List.filter_eq_self]
        intro s hs
        have hne : ¬ s.session_id = e.session_id := by
          intro hx
          exact hnd.1 (hx ▸ List.mem_map_of_mem _ hs)
        simpa using hne
      simp [List.filter_cons, ht]
    · have hne : a.session_id ≠ e.session_id := by
        intro hx
        apply hnd.1
        rw [hx]
        exact List.mem_map_of_mem _ h1
      have hpred : (a.session_id != e.session_id) = true := by simpa using hne
      have hih := ih hnd.2 h1
      simp [List.filter_cons, hpred]
      omega

/-- C5 counterexample: sessions `s1` and `s2` of user `u1` tie on
`last_activity`; `s1` was created at time 100, `s2` at time 50, so the
claim's tie-break predicts that `s2` (oldest `created_at`) is evicted and
`s1` survives.  The source's eviction query orders by `last_activity`
alone, and the 6th-session creation evicts `s1` while `s2` stays
active. -/
theorem eviction_tiebreak_counterexample :
    (esResultSessions (es_create_session sampleEState5 0 sampleRequest "s6" "a6"
      "r6")).filter (fun s => s.session_id == "s1" && s.is_active) = [] ∧
    ((esResultSessions (es_create_session sampleEState5 0 sampleRequest "s6" "a6"
      "r6")).filter (fun s => s.session_id == "s2" && s.is_active)).length = 1 ∧
    ((esResultSessions (es_create_session sampleEState5 0 sampleRequest "s6" "a6"
      "r6")).filter (fun s => s.is_active)).length = 5 := by
  exact ⟨by decide, by decide, by decide⟩

/-- C5 (amended): with the default limit of 5, when a subject with no
limits row already has exactly 5 active unexpired sessions (with distinct
session ids) and creates a 6th without a device fingerprint,
`create_session` succeeds and evicts exactly one session — one whose
`last_activity` is minimal among the subject's active sessions (the first
such in stored order; the source's eviction query carries no `created_at`
tie-break) — leaving exactly 5 active sessions: the 4 survivors plus the
new one. -/
theorem sixth_session_evicts_oldest_activity
    (st : EState) (now : Int) (u nsid najti nrjti : String)
    (req : CreateSessionRequest)
    (hrequ : req.user_id = u) (hreqfp : req.device_fingerprint = none)
    (hlim : st.session_limits.find? (fun l => l.user_id == u) = none)
    (hA : (st.active_sessions.filter
      (fun s => s.user_id == u && s.is_active)).length = 5)
    (hunexp : ∀ s ∈ st.active_sessions.filter
      (fun s => s.user_id == u && s.is_active), now < s.expires_at)
    (hnd : (st.active_sessions.map (fun s => s.session_id)).Nodup) :
    ∃ evicted newSession : EnterpriseSession, ∃ stP : EState,
      es_create_session st now req nsid najti nrjti = .ok (newSession, stP) ∧
      evicted ∈ st.active_sessions.filter (fun s => s.user_id == u && s.is_active) ∧
      (∀ s ∈ st.active_sessions.filter (fun s => s.user_id == u && s.is_active),
        evicted.last_activity ≤ s.last_activity) ∧
      newSession.is_active = true ∧
      newSession.user_id = u ∧
      newSession.session_id = nsid ∧
      stP.active_sessions.filter (fun s => s.user_id == u && s.is_active)
        = (st.active_sessions.filter
            (fun s => s.user_id == u && s.is_active)).filter
            (fun s => s.session_id != evicted.session_id) ++ [newSession] ∧
      (stP.active_sessions.filter
        (fun s => s.user_id == u && s.is_active)).length = 5 := by
  have hlenSort : (sortByActivity (st.active_sessions.filter
      (fun s => s.user_id == u && s.is_active))).length = 5 := by
    rw [(sortByActivity_perm _).length_eq]
    exact hA
  obtain ⟨e, rest, hsort⟩ : ∃ e rest, sortByActivity (st.active_sessions.filter
      (fun s => s.user_id == u && s.is_active)) = e :: rest := by
    cases hs : sortByActivity (st.active_sessions.filter
        (fun s => s.user_id == u && s.is_active)) with
    | nil => rw [hs] at hlenSort; simp at hlenSort
    | cons e rest => exact ⟨e, rest, rfl⟩
  have heSort : e ∈ sortByActivity (st.active_sessions.filter
      (fun s => s.user_id == u && s.is_active)) := by
    rw [hsort]
    exact List.mem_cons_self e rest
  have heA : e ∈ st.active_sessions.filter
      (fun s => s.user_id == u && s.is_active) :=
    (sortByActivity_perm _).subset heSort
  have heS : e ∈ st.active_sessions := List.mem_of_mem_filter heA
  have hmin : ∀ s ∈ st.active_sessions.filter
      (fun s => s.user_id == u && s.is_active),
      e.last_activity ≤ s.last_activity := by
    intro s hs
    have hs2 : s ∈ sortByActivity (st.active_sessions.filter
        (fun s => s.user_id == u && s.is_active)) :=
      (sortByActivity_perm _).symm.subset hs
    rw [hsort] at hs2
    rcases List.mem_cons.mp hs2 with h | h
    · subst h
      exact le_refl _
    · have hsorted := sortByActivity_sorted (st.active_sessions.filter
        (fun s => s.user_id == u && s.is_active))
      rw [hsort] at hsorted
      exact List.rel_of_sorted_cons hsorted s h
  have hfind : st.active_sessions.find? (fun s => s.session_id == e.session_id)
      = some e := find?_session_id_unique _ _ hnd heS
  have hfilt3 : st.active_sessions.filter
      (fun s => s.user_id == u && s.is_active && decide (now < s.expires_at))
      = st.active_sessions.filter (fun s => s.user_id == u && s.is_active) := by
    apply List.filter_congr
    intro s hs
    by_cases hp : (s.user_id == u && s.is_active) = true
    · have hsA : s ∈ st.active_sessions.filter
          (fun s => s.user_id == u && s.is_active) := List.mem_filter.mpr ⟨hs, hp⟩
      have hq := hunexp s hsA
      simp [hp, hq]
    · have hp2 : (s.user_id == u && s.is_active) = false := by
        simpa using hp
      simp [hp2]
  have henfBig : es_enforce_session_limits st now u none
      = .ok (es_record_security_event
          { (es_revoke_session_tokens st now e "concurrent_session_limit" none) with
              active_sessions := (es_revoke_session_tokens st now e
                "concurrent_session_limit" none).active_sessions.map
                (deactivateSession e.session_id) }
          (sessionRevokedEvent now e.session_id e.user_id "concurrent_session_limit"
            none)) := by
    unfold es_enforce_session_limits
    simp only [hlim, Option.getD, defaultSessionLimits, hfilt3, hA, hsort]
    norm_num
    simp only [List.take_succ_cons, List.take_zero, List.map_cons, List.map_nil,
      es_revokeList, es_revoke_session, hfind]
  obtain ⟨stD, henf, hsessD, hlimD⟩ : ∃ stD : EState,
      es_enforce_session_limits st now u none = .ok stD ∧
      stD.active_sessions = st.active_sessions.map (deactivateSession e.session_id) ∧
      stD.session_limits = st.session_limits :=
    ⟨_, henfBig, by simp [es_record_security_event, es_revoke_session_tokens],
      by simp [es_record_security_event, es_revoke_session_tokens]⟩
  have hcr : es_create_session st now req nsid najti nrjti
      = .ok (newSessionRecord now req nsid najti nrjti,
             { stD with active_sessions := stD.active_sessions
                 ++ [newSessionRecord now req nsid najti nrjti] }) := by
    unfold es_create_session
    rw [hrequ, hreqfp, henf]
  have hact : (newSessionRecord now req nsid najti nrjti).is_active = true := rfl
  have huid : (newSessionRecord now req nsid najti nrjti).user_id = u := by
    simp [newSessionRecord, hrequ]
  have hsid : (newSessionRecord now req nsid najti nrjti).session_id = nsid := rfl
  have hndA : ((st.active_sessions.filter
      (fun s => s.user_id == u && s.is_active)).map
      (fun s => s.session_id)).Nodup := by
    apply List.Nodup.sublist _ hnd
    exact (List.filter_sublist _).map _
  have hchar : (stD.active_sessions
        ++ [newSessionRecord now req nsid najti nrjti]).filter
        (fun s => s.user_id == u && s.is_active)
      = (st.active_sessions.filter
          (fun s => s.user_id == u && s.is_active)).filter
          (fun s => s.session_id != e.session_id)
        ++ [newSessionRecord now req nsid najti nrjti] := by
    rw [hsessD, List.filter_append]
    have hnewfilter : [newSessionRecord now req nsid najti nrjti].filter
        (fun s => s.user_id == u && s.is_active)
        = [newSessionRecord now req nsid najti nrjti] := by
      simp [List.filter_cons, huid, hact, newSessionRecord, hrequ]
    rw [hnewfilter]
    congr 1
    rw [List.filter_map]
    have hcong : st.active_sessions.filter
        ((fun s => s.user_id == u && s.is_active) ∘ deactivateSession e.session_id)
        = st.active_sessions.filter
          (fun s => (s.session_id != e.session_id)
            && (s.user_id == u && s.is_active)) := by
      apply List.filter_congr
      intro s _
      by_cases hsid2 : (s.session_id == e.session_id) = true
      · simp [Function.comp, deactivateSession, hsid2]
        intro h
        exact absurd (by simpa using hsid2) h
      · have hf : (s.session_id == e.session_id) = false := by
          simpa using hsid2
        simp [Function.comp, deactivateSession, hf]
        intro _ _
        simpa using hf
    rw [hcong, ← List.filter_filter]
    have hidmap : ∀ a ∈ (st.active_sessions.filter
        (fun s => s.user_id == u && s.is_active)).filter
        (fun s => s.session_id != e.session_id),
        deactivateSession e.session_id a = id a := by
      intro a ha
      have hpa := (List.mem_filter.mp ha).2
      have hane : (a.session_id == e.session_id) = false := by
        simpa [bne] using hpa
      simp [deactivateSession, hane]
    rw [List.map_congr_left hidmap, List.map_id]
  refine ⟨e, newSessionRecord now req nsid najti nrjti,
    { stD with active_sessions := stD.active_sessions
        ++ [newSessionRecord now req nsid najti nrjti] },
    hcr, heA, hmin, hact, huid, hsid, hchar, ?_⟩
  rw [hchar, List.length_append, List.length_singleton]
  have hlen4 := filter_ne_sid_length _ e hndA heA
  rw [hA] at hlen4
  omega

/-- C5 witness: the 6th-session scenario at the concrete 5-session
state. -/
theorem sixth_session_evicts_oldest_activity_witness :
    ∃ evicted newSession : EnterpriseSession, ∃ stP : EState,
      es_create_session sampleEState5 0 sampleRequest "s6" "a6" "r6"
        = .ok (newSession, stP) ∧
      evicted ∈ sampleEState5.active_sessions.filter
        (fun s => s.user_id == "u1" && s.is_active) ∧
      (∀ s ∈ sampleEState5.active_sessions.filter
        (fun s => s.user_id == "u1" && s.is_active),
        evicted.last_activity ≤ s.last_activity) ∧
      newSession.is_active = true ∧
      newSession.user_id = "u1" ∧
      newSession.session_id = "s6" ∧
      stP.active_sessions.filter (fun s => s.user_id == "u1" && s.is_active)
        = (sampleEState5.active_sessions.filter
            (fun s => s.user_id == "u1" && s.is_active)).filter
            (fun s => s.session_id != evicted.session_id) ++ [newSession] ∧
      (stP.active_sessions.filter
        (fun s => s.user_id == "u1" && s.is_active)).length = 5 :=
  sixth_session_evicts_oldest_activity sampleEState5 0 "u1" "s6" "a6" "r6"
    sampleRequest rfl rfl (by decide) (by decide) (by decide) (by decide)

/-! ## Lemmas about the audit log -/

theorem parse_auditEventTypeStr (ty : AuditEventType) :
    parse_event_type (auditEventTypeStr ty) = .ok ty := by
  cases ty <;> rfl

theorem parse_event_type_inverse {s : String} {ty : AuditEventType}
    (h : parse_event_type s = .ok ty) : auditEventTypeStr ty = s := by
  unfold parse_event_type at h
  by_cases h1 : s = "UserLogin"
  · rw [if_pos h1] at h; injection h with hh; subst hh; rw [h1]; rfl
  · rw [if_neg h1] at h
    by_cases h2 : s = "UserLogout"
    · rw [if_pos h2] at h; injection h with hh; subst hh; rw [h2]; rfl
    · rw [if_neg h2] at h
      by_cases h3 : s = "UserRegistration"
      · rw [if_pos h3] at h; injection h with hh; subst hh; rw [h3]; rfl
      · rw [if_neg h3] at h
        by_cases h4 : s = "PasswordCreated"
        · rw [if_pos h4] at h; injection h with hh; subst hh; rw [h4]; rfl
        · rw [if_neg h4] at h
          by_cases h5 : s = "PasswordUpdated"
          · rw [if_pos h5] at h; injection h with hh; subst hh; rw [h5]; rfl
          · rw [if_neg h5] at h
            by_cases h6 : s = "PasswordDeleted"
            · rw [if_pos h6] at h; injection h with hh; subst hh; rw [h6]; rfl
            · rw [if_neg h6] at h
              by_cases h7 : s = "PasswordViewed"
              · rw [if_pos h7] at h; injection h with hh; subst hh; rw [h7]; rfl
              · rw [if_neg h7] at h
                by_cases h8 : s = "FolderCreated"
                · rw [if_pos h8] at h; injection h with hh; subst hh; rw [h8]; rfl
                · rw [if_neg h8] at h
                  by_cases h9 : s = "FolderUpdated"
                  · rw [if_pos h9] at h; injection h with hh; subst hh; rw [h9]; rfl
                  · rw [if_neg h9] at h
                    by_cases h10 : s = "FolderDeleted"
                    · rw [if_pos h10] at h; injection h with hh; subst hh; rw [h10]; rfl
                    · rw [if_neg h10] at h
                      by_cases h11 : s = "ShareCreated"
                      · rw [if_pos h11] at h; injection h with hh; subst hh; rw [h11]; rfl
                      · rw [if_neg h11] at h
                        by_cases h12 : s = "ShareRemoved"
                        · rw [if_pos h12] at h; injection h with hh; subst hh; rw [h12]; rfl
                        · rw [if_neg h12] at h
                          by_cases h13 : s = "PasswordReset"
                          · rw [if_pos h13] at h; injection h with hh; subst hh; rw [h13]; rfl
                          · rw [if_neg h13] at h
                            by_cases h14 : s = "TokenRefresh"
                            · rw [if_pos h14] at h; injection h with hh; subst hh; rw [h14]; rfl
                            · rw [if_neg h14] at h
                              by_cases h15 : s = "LoginFailed"
                              · rw [if_pos h15] at h; injection h with hh; subst hh; rw [h15]; rfl
                              · rw [if_neg h15] at h
                                by_cases h16 : s = "UnauthorizedAccess"
                                · rw [if_pos h16] at h; injection h with hh; subst hh; rw [h16]; rfl
                                · rw [if_neg h16] at h
                                  by_cases h17 : s = "DataExport"
                                  · rw [if_pos h17] at h; injection h with hh; subst hh; rw [h17]; rfl
                                  · rw [if_neg h17] at h
                                    by_cases h18 : s = "DataImport"
                                    · rw [if_pos h18] at h; injection h with hh; subst hh; rw [h18]; rfl
                                    · rw [if_neg h18] at h
                                      exact Except.noConfusion h

theorem pipe7_cancel1 (x y a2 a3 a4 a5 a6 a7 : String)
    (h : x ++ "|" ++ a2 ++ "|" ++ a3 ++ "|" ++ a4 ++ "|" ++ a5 ++ "|" ++ a6 ++ "|" ++ a7
       = y ++ "|" ++ a2 ++ "|" ++ a3 ++ "|" ++ a4 ++ "|" ++ a5 ++ "|" ++ a6 ++ "|" ++ a7) :
    x = y := by
  have h0 := congrArg String.data h
  simp only [String.data_append, List.append_assoc] at h0
  replace h0 := List.append_cancel_right h0
  exact String.ext h0

theorem pipe7_cancel2 (a1 x y a3 a4 a5 a6 a7 : String)
    (h : a1 ++ "|" ++ x ++ "|" ++ a3 ++ "|" ++ a4 ++ "|" ++ a5 ++ "|" ++ a6 ++ "|" ++ a7
       = a1 ++ "|" ++ y ++ "|" ++ a3 ++ "|" ++ a4 ++ "|" ++ a5 ++ "|" ++ a6 ++ "|" ++ a7) :
    x = y := by
  have h0 := congrArg String.data h
  simp only [String.data_append, List.append_assoc] at h0
  replace h0 := List.append_cancel_left h0
  replace h0 := List.append_cancel_left h0
  replace h0 := List.append_cancel_right h0
  exact String.ext h0

theorem pipe7_cancel3 (a1 a2 x y a4 a5 a6 a7 : String)
    (h : a1 ++ "|" ++ a2 ++ "|" ++ x ++ "|" ++ a4 ++ "|" ++ a5 ++ "|" ++ a6 ++ "|" ++ a7
       = a1 ++ "|" ++ a2 ++ "|" ++ y ++ "|" ++ a4 ++ "|" ++ a5 ++ "|" ++ a6 ++ "|" ++ a7) :
    x = y := by
  have h0 := congrArg String.data h
  simp only [String.data_append, List.append_assoc] at h0
  replace h0 := List.append_cancel_left h0
  replace h0 := List.append_cancel_left h0
  replace h0 := List.append_cancel_left h0
  replace h0 := List.append_cancel_left h0
  replace h0 := List.append_cancel_right h0
  exact String.ext h0

theorem pipe7_cancel4 (a1 a2 a3 x y a5 a6 a7 : String)
    (h : a1 ++ "|" ++ a2 ++ "|" ++ a3 ++ "|" ++ x ++ "|" ++ a5 ++ "|" ++ a6 ++ "|" ++ a7
       = a1 ++ "|" ++ a2 ++ "|" ++ a3 ++ "|" ++ y ++ "|" ++ a5 ++ "|" ++ a6 ++ "|" ++ a7) :
    x = y := by
  have h0 := congrArg String.data h
  simp only [String.data_append, List.append_assoc] at h0
  replace h0 := List.append_cancel_left h0
  replace h0 := List.append_cancel_left h0
  replace h0 := List.append_cancel_left h0
  replace h0 := List.append_cancel_left h0
  replace h0 := List.append_cancel_left h0
  replace h0 := List.append_cancel_left h0
  replace h0 := List.append_cancel_right h0
  exact String.ext h0

theorem pipe7_cancel5 (a1 a2 a3 a4 x y a6 a7 : String)
    (h : a1 ++ "|" ++ a2 ++ "|" ++ a3 ++ "|" ++ a4 ++ "|" ++ x ++ "|" ++ a6 ++ "|" ++ a7
       = a1 ++ "|" ++ a2 ++ "|" ++ a3 ++ "|" ++ a4 ++ "|" ++ y ++ "|" ++ a6 ++ "|" ++ a7) :
    x = y := by
  have h0 := congrArg String.data h
  simp only [String.data_append, List.append_assoc] at h0
  replace h0 := List.append_cancel_left h0
  replace h0 := List.append_cancel_left h0
  replace h0 := List.append_cancel_left h0
  replace h0 := List.append_cancel_left h0
  replace h0 := List.append_cancel_left h0
  replace h0 := List.append_cancel_left h0
  replace h0 := List.append_cancel_left h0
  replace h0 := List.append_cancel_left h0
  replace h0 := List.append_cancel_right h0
  exact String.ext h0

theorem pipe7_cancel6 (a1 a2 a3 a4 a5 x y a7 : String)
    (h : a1 ++ "|" ++ a2 ++ "|" ++ a3 ++ "|" ++ a4 ++ "|" ++ a5 ++ "|" ++ x ++ "|" ++ a7
       = a1 ++ "|" ++ a2 ++ "|" ++ a3 ++ "|" ++ a4 ++ "|" ++ a5 ++ "|" ++ y ++ "|" ++ a7) :
    x = y := by
  have h0 := congrArg String.data h
  simp only [String.data_append, List.append_assoc] at h0
  replace h0 := List.append_cancel_left h0
  replace h0 := List.append_cancel_left h0
  replace h0 := List.append_cancel_left h0
  replace h0 := List.append_cancel_left h0
  replace h0 := List.append_cancel_left h0
  replace h0 := List.append_cancel_left h0
  replace h0 := List.append_cancel_left h0
  replace h0 := List.append_cancel_left h0
  replace h0 := List.append_cancel_left h0
  replace h0 := List.append_cancel_left h0
  replace h0 := List.append_cancel_right h0
  exact String.ext h0

theorem pipe7_cancel7 (a1 a2 a3 a4 a5 a6 x y : String)
    (h : a1 ++ "|" ++ a2 ++ "|" ++ a3 ++ "|" ++ a4 ++ "|" ++ a5 ++ "|" ++ a6 ++ "|" ++ x
       = a1 ++ "|" ++ a2 ++ "|" ++ a3 ++ "|" ++ a4 ++ "|" ++ a5 ++ "|" ++ a6 ++ "|" ++ y) :
    x = y := by
  have h0 := congrArg String.data h
  simp only [String.data_append, List.append_assoc] at h0
  replace h0 := List.append_cancel_left h0
  replace h0 := List.append_cancel_left h0
  replace h0 := List.append_cancel_left h0
  replace h0 := List.append_cancel_left h0
  replace h0 := List.append_cancel_left h0
  replace h0 := List.append_cancel_left h0
  replace h0 := List.append_cancel_left h0
  replace h0 := List.append_cancel_left h0
  replace h0 := List.append_cancel_left h0
  replace h0 := List.append_cancel_left h0
  replace h0 := List.append_cancel_left h0
  replace h0 := List.append_cancel_left h0
  exact String.ext h0

/-- C9 counterexample: the stored entry carries an empty-string ip
address; replacing it out-of-band with NULL alters the stored field, yet
`verify_log_integrity` still returns true, because both serialize to the
empty string in the MACed canonical encoding. -/
theorem audit_verify_empty_field_counterexample :
    verify_log_integrity macId "k" sampleAuditLog = .ok true ∧
    sampleAuditLogAltered.ip_address ≠ sampleAuditLog.ip_address ∧
    sampleAuditLogAltered = { sampleAuditLog with ip_address := none } ∧
    verify_log_integrity macId "k" sampleAuditLogAltered = .ok true := by
  exact ⟨by rfl, by decide, rfl, by rfl⟩

/-- C9 (amended): immediately after `log_event` stores an entry,
`verify_log_integrity` returns true; and — assuming the keyed MAC is
collision-free — altering any single stored field whose canonical
serialization changes makes `verify_log_integrity` no longer return true.
(The serialization caveat is forced: replacing an absent optional
ip-address, user-agent or details value with the empty string, or vice
versa, serializes identically under `unwrap_or_default` and remains
undetected; uuid and timestamp renderings are injective, so for those any
value change is detected.) -/
theorem audit_append_verify_and_tamper (mac : String → String → String)
    (secret id : String)
    (hmac : ∀ d1 d2 : String, d1 ≠ d2 → mac secret d1 ≠ mac secret d2)
    (e : AuditEvent) :
    verify_log_integrity mac secret (mkAuditLog mac secret id e) = .ok true ∧
    ∀ log2 : AuditLog,
      ((∃ s2, log2 = { mkAuditLog mac secret id e with event_type := s2 } ∧
          s2 ≠ auditEventTypeStr e.event_type) ∨
       (∃ v, log2 = { mkAuditLog mac secret id e with user_id := v } ∧
          optStr v ≠ optStr e.user_id) ∨
       (∃ v, log2 = { mkAuditLog mac secret id e with resource_id := v } ∧
          optStr v ≠ optStr e.resource_id) ∨
       (∃ v, log2 = { mkAuditLog mac secret id e with ip_address := v } ∧
          optStr v ≠ optStr e.ip_address) ∨
       (∃ v, log2 = { mkAuditLog mac secret id e with user_agent := v } ∧
          optStr v ≠ optStr e.user_agent) ∨
       (∃ v, log2 = { mkAuditLog mac secret id e with details := v } ∧
          optStr v ≠ optStr e.details) ∨
       (∃ t2, log2 = { mkAuditLog mac secret id e with timestamp := t2 } ∧
          tsStr t2 ≠ tsStr e.timestamp)) →
      verify_log_integrity mac secret log2 ≠ .ok true := by
  constructor
  · simp [verify_log_integrity, mkAuditLog, parse_auditEventTypeStr,
      generate_integrity_hash]
  · intro log2 halter hcontra
    rcases halter with ⟨s2, rfl, hne⟩ | ⟨v, rfl, hne⟩ | ⟨v, rfl, hne⟩ |
      ⟨v, rfl, hne⟩ | ⟨v, rfl, hne⟩ | ⟨v, rfl, hne⟩ | ⟨t2, rfl, hne⟩
    · simp only [verify_log_integrity, mkAuditLog] at hcontra
      rcases hp : parse_event_type s2 with err | ty2
      · rw [hp] at hcontra
        simp at hcontra
      · rw [hp] at hcontra
        have hs2 : auditEventTypeStr ty2 = s2 := parse_event_type_inverse hp
        simp only [generate_integrity_hash, auditLogData, Except.ok.injEq,
          beq_iff_eq] at hcontra
        exact hne (hs2.symm.trans (pipe7_cancel1 _ _ _ _ _ _ _ _
          (Classical.byContradiction fun hd => hmac _ _ hd hcontra)))
    · simp only [verify_log_integrity, mkAuditLog, parse_auditEventTypeStr,
        generate_integrity_hash, auditLogData, Except.ok.injEq, beq_iff_eq]
        at hcontra
      exact hne (pipe7_cancel2 _ _ _ _ _ _ _ _
        (Classical.byContradiction fun hd => hmac _ _ hd hcontra))
    · simp only [verify_log_integrity, mkAuditLog, parse_auditEventTypeStr,
        generate_integrity_hash, auditLogData, Except.ok.injEq, beq_iff_eq]
        at hcontra
      exact hne (pipe7_cancel3 _ _ _ _ _ _ _ _
        (Classical.byContradiction fun hd => hmac _ _ hd hcontra))
    · simp only [verify_log_integrity, mkAuditLog, parse_auditEventTypeStr,
        generate_integrity_hash, auditLogData, Except.ok.injEq, beq_iff_eq]
        at hcontra
      exact hne (pipe7_cancel4 _ _ _ _ _ _ _ _
        (Classical.byContradiction fun hd => hmac _ _ hd hcontra))
    · simp only [verify_log_integrity, mkAuditLog, parse_auditEventTypeStr,
        generate_integrity_hash, auditLogData, Except.ok.injEq, beq_iff_eq]
        at hcontra
      exact hne (pipe7_cancel5 _ _ _ _ _ _ _ _
        (Classical.byContradiction fun hd => hmac _ _ hd hcontra))
    · simp only [verify_log_integrity, mkAuditLog, parse_auditEventTypeStr,
        generate_integrity_hash, auditLogData, Except.ok.injEq, beq_iff_eq]
        at hcontra
      exact hne (pipe7_cancel6 _ _ _ _ _ _ _ _
        (Classical.byContradiction fun hd => hmac _ _ hd hcontra))
    · simp only [verify_log_integrity, mkAuditLog, parse_auditEventTypeStr,
        generate_integrity_hash, auditLogData, Except.ok.injEq, beq_iff_eq]
        at hcontra
      exact hne (pipe7_cancel7 _ _ _ _ _ _ _ _
        (Classical.byContradiction fun hd => hmac _ _ hd hcontra))

/-- C9 amended witness: under the identity MAC (collision-free for a fixed
secret) the freshly stored sample entry verifies, and the same entry with
its details field changed to a different string no longer verifies. -/
theorem audit_append_verify_and_tamper_witness :
    verify_log_integrity macId "k"
      (mkAuditLog macId "k" "id-1" sampleAuditEvent) = .ok true ∧
    verify_log_integrity macId "k"
      { mkAuditLog macId "k" "id-1" sampleAuditEvent with
        details := some "changed" } ≠ .ok true := by
  have h := audit_append_verify_and_tamper macId "k" "id-1"
    (fun _ _ hne hc => hne hc) sampleAuditEvent
  exact ⟨h.1, h.2 _ (Or.inr (Or.inr (Or.inr (Or.inr (Or.inr (Or.inl
    ⟨some "changed", rfl, by decide⟩))))))⟩
